import Mathlib

/-!
# openwrt_action_handler: debounce and dispatch of wireless events

A shallow embedding of `main.go`.  The Go program keeps one global map
`wireless_client_last_connect`, reads the wall clock with `time.Now()` and
spawns `/bin/sh -c cmd`.  Here the map, the number of clock readings taken
and the list of commands handed to the shell form an explicit `World`; the
clock, the shell, the JSON decoder and the two library tables the program
relies on (`strconv.Quote`, the non-ASCII part of `unicode.SimpleFold`) are
fields of an environment `Env`.  A failed type assertion is the outcome
`Outcome.panic`.  Writes to standard output (`fmt.Printf`, `print`) are not
recorded.
-/

namespace ActionHandler

/-! ## JSON values as `encoding/json` decodes them into `interface{}` -/

/-- A finite `float64` in the form `strconv` reduces it to before printing:
sign, shortest decimal digits `d` (most significant first) and position
`dp` of the decimal point, the value being `0.d × 10^dp`. -/
structure Float64 where
  neg : Bool
  d : List Nat
  dp : Int
deriving DecidableEq, Repr

/-- The dynamic values an `interface{}` holds after `json.Unmarshal`:
`nil`, `bool`, `float64`, `string`, `[]interface{}` and
`map[string]interface{}` (as a list of key/value pairs, looked up by key). -/
inductive Value where
  | null : Value
  | bool (b : Bool) : Value
  | num (f : Float64) : Value
  | str (s : String) : Value
  | list (l : List Value) : Value
  | obj (kvs : List (String × Value)) : Value
deriving Repr

/-- The Go type `map[string]interface{}`; a nil map is the empty list. -/
abbrev Params := List (String × Value)

/-- Struct `Event`. -/
structure Event where
  name : String
  params : Params
  separator : String

/-- Struct `Action`; `cmd` is the `*string` field, `none` for a nil pointer. -/
structure Action where
  cmd : Option String
  params : Params

/-- Struct `Payload`. -/
structure Payload where
  event : Event
  action : Action

/-- Map index expression `m[key]` in its comma-ok form. -/
def mapGet (m : Params) (key : String) : Option Value :=
  match m with
  | [] => none
  | (k, v) :: rest => if k = key then some v else mapGet rest key

/-! ## `fmt.Sprintf("%v", x)` -/

/-- The byte `'0' + n` for a decimal digit `n`. -/
def digitChar (n : Nat) : Char := Char.ofNat (48 + n)

/-- Digit `d[i]` of a digit list, `'0'` outside of it. -/
def digitAt (d : List Nat) (i : Int) : Char :=
  if 0 ≤ i ∧ i.toNat < d.length then digitChar (d.getD i.toNat 0) else '0'

/-- Function `fmtF` of `strconv/ftoa.go` (`%f` layout of the digits) with
`prec` digits after the point. -/
def fmtF (f : Float64) (prec : Nat) : List Char :=
  let sign := if f.neg then ['-'] else []
  let intPart :=
    if 0 < f.dp then (List.range f.dp.toNat).map (fun i => digitAt f.d i)
    else ['0']
  let frac :=
    if 0 < prec then '.' :: (List.range prec).map (fun i => digitAt f.d (f.dp + i))
    else []
  sign ++ intPart ++ frac

/-- Function `fmtE` of `strconv/ftoa.go` (`%e` layout of the digits) with
`prec` digits after the point. -/
def fmtE (f : Float64) (prec : Nat) : List Char :=
  let sign := if f.neg then ['-'] else []
  let first := if f.d.length ≠ 0 then digitChar (f.d.getD 0 0) else '0'
  let more :=
    if 0 < prec then '.' :: (List.range prec).map (fun i => digitAt f.d (i + 1))
    else []
  let exp : Int := if f.d.length = 0 then 0 else f.dp - 1
  let esign := if exp < 0 then '-' else '+'
  let e := exp.natAbs
  let edigits :=
    if e < 10 then ['0', digitChar e]
    else if e < 100 then [digitChar (e / 10), digitChar (e % 10)]
    else [digitChar (e / 100), digitChar (e / 10 % 10), digitChar (e % 10)]
  sign ++ [first] ++ more ++ ['e', esign] ++ edigits

/-- Verb `%v` on a `float64`: `%g` with the shortest precision
(`strconv.formatDigits` with `shortest`, so `eprec = 6`): the `%e` layout
when the decimal exponent is below -4 or at least 6, otherwise `%f` with
`max(nd - dp, 0)` digits after the point. -/
def fmtFloat (f : Float64) : List Char :=
  let exp := f.dp - 1
  if exp < -4 ∨ 6 ≤ exp then fmtE f (f.d.length - 1)
  else fmtF f ((f.d.length : Int) - f.dp).toNat

/-- Elements of a slice or map as `fmt` lays them out: separated by one
space. -/
def joinSpace : List (List Char) → List Char
  | [] => []
  | [x] => x
  | x :: y :: rest => x ++ ' ' :: joinSpace (y :: rest)

/-- Insert one rendered map entry into a list kept in increasing key order;
an entry whose key is already there is dropped (the first binding of a key
is the one `mapGet` returns). -/
def insertEntry (k : String) (r : List Char) :
    List (String × List Char) → List (String × List Char)
  | [] => [(k, r)]
  | (k', r') :: rest =>
    if k = k' then (k', r') :: rest
    else if k < k' then (k, r) :: (k', r') :: rest
    else (k', r') :: insertEntry k r rest

/-- Rendered map entries in the key order `fmt` prints a map in. -/
def sortEntries (es : List (String × List Char)) : List (String × List Char) :=
  es.reverse.foldr (fun e acc => insertEntry e.1 e.2 acc) []

mutual
/-- Verb `%v` on a decoded JSON value, as a list of characters. -/
def fmtV : Value → List Char
  | .null => "<nil>".data
  | .bool b => if b then "true".data else "false".data
  | .num f => fmtFloat f
  | .str s => s.data
  | .list l => '[' :: joinSpace (fmtVList l) ++ [']']
  | .obj kvs =>
    "map[".data ++ joinSpace ((sortEntries (fmtVFields kvs)).map
      (fun e => e.1.data ++ ':' :: e.2)) ++ [']']
/-- Verb `%v` on each element of a slice. -/
def fmtVList : List Value → List (List Char)
  | [] => []
  | v :: vs => fmtV v :: fmtVList vs
/-- Verb `%v` on each value of a map. -/
def fmtVFields : List (String × Value) → List (String × List Char)
  | [] => []
  | (k, v) :: rest => (k, fmtV v) :: fmtVFields rest
end

/-- Go `fmt.Sprintf("%v", x)` for a decoded JSON value. -/
def Sprintf_v (x : Value) : String := String.mk (fmtV x)

mutual
/-- Verb `%s` on a value met inside a slice or a map: a string prints as
itself, a slice or map applies the verb to its elements, a boolean or a
number prints as the bad-verb form `%!s(type=value)`, and a nil element
prints as `<nil>`. -/
def fmtSElem : Value → List Char
  | .null => "<nil>".data
  | .bool b => "%!s(bool=".data ++ (if b then "true".data else "false".data) ++ [')']
  | .num f => "%!s(float64=".data ++ fmtFloat f ++ [')']
  | .str s => s.data
  | .list l => '[' :: joinSpace (fmtSList l) ++ [']']
  | .obj kvs =>
    "map[".data ++ joinSpace ((sortEntries (fmtSFields kvs)).map
      (fun e => e.1.data ++ ':' :: e.2)) ++ [']']
/-- Verb `%s` on each element of a slice. -/
def fmtSList : List Value → List (List Char)
  | [] => []
  | v :: vs => fmtSElem v :: fmtSList vs
/-- Verb `%s` on each value of a map. -/
def fmtSFields : List (String × Value) → List (String × List Char)
  | [] => []
  | (k, v) :: rest => (k, fmtSElem v) :: fmtSFields rest
end

/-- Verb `%s` on a decoded JSON value given as the argument: a nil argument
prints as the bad-verb form `%!s(<nil>)`, every other value as `fmtSElem`
prints it. -/
def fmtS : Value → List Char
  | .null => "%!s(<nil>)".data
  | v => fmtSElem v

/-- Go `fmt.Sprintf("%s", x)` for a decoded JSON value. -/
def Sprintf_s (x : Value) : String := String.mk (fmtS x)

/-! ## `strconv.Atoi` -/

/-- The two causes a `*strconv.NumError` carries. -/
inductive NumErr where
  | errSyntax
  | errRange
deriving DecidableEq, Repr

/-- The digit loop of `strconv.ParseUint` in base 10: a byte that is not a
decimal digit is a syntax error, a value above `maxVal` a range error,
whichever comes first. -/
def parseUintLoop (maxVal : Nat) : List Char → Nat → Except NumErr Nat
  | [], n => .ok n
  | c :: cs, n =>
    if 48 ≤ c.toNat ∧ c.toNat ≤ 57 then
      if n * 10 + (c.toNat - 48) > maxVal then .error .errRange
      else parseUintLoop maxVal cs (n * 10 + (c.toNat - 48))
    else .error .errSyntax

/-- Go `strconv.Atoi` for an `int` of `intSize` bits: an optional sign and
at least one decimal digit, the value within the range of `int`. -/
def Atoi (intSize : Nat) (s : String) : Except NumErr Int :=
  match s.data with
  | [] => .error .errSyntax
  | c :: cs =>
    let neg := c = '-'
    let digits := if c = '+' ∨ c = '-' then cs else c :: cs
    match digits with
    | [] => .error .errSyntax
    | _ :: _ =>
      match parseUintLoop (2 ^ intSize - 1) digits 0 with
      | .error e => .error e
      | .ok un =>
        if ¬ neg ∧ un ≥ 2 ^ (intSize - 1) then .error .errRange
        else if neg ∧ un > 2 ^ (intSize - 1) then .error .errRange
        else .ok (if neg then -(un : Int) else (un : Int))

/-! ## `strings.EqualFold` -/

/-- One step of the rune loop of `strings.EqualFold`: equal runes match;
otherwise, with `sr` the smaller and `tr` the larger of the two, an ASCII
`tr` matches when `sr` is an upper-case letter and `tr` its lower-case
form, and a non-ASCII `tr` matches when iterating `unicode.SimpleFold` from
`sr` reaches it (`reaches sr tr`, read from the Unicode tables). -/
def foldRune (reaches : Char → Char → Bool) (a b : Char) : Bool :=
  if a = b then true
  else
    let sr := if b.toNat < a.toNat then b else a
    let tr := if b.toNat < a.toNat then a else b
    if tr.toNat < 128 then
      decide (65 ≤ sr.toNat ∧ sr.toNat ≤ 90 ∧ tr.toNat = sr.toNat + 32)
    else reaches sr tr

/-- The rune loop of `strings.EqualFold`. -/
def equalFoldRunes (reaches : Char → Char → Bool) : List Char → List Char → Bool
  | [], t => t.isEmpty
  | _ :: _, [] => false
  | sr :: s, tr :: t => foldRune reaches sr tr && equalFoldRunes reaches s t

/-- Go `strings.EqualFold(s, t)`. -/
def EqualFold (reaches : Char → Char → Bool) (s t : String) : Bool :=
  equalFoldRunes reaches s.data t.data

/-! ## Time, state and environment -/

/-- A `time.Time`: the seconds `Unix()` returns and the nanoseconds within
the second. -/
structure Time where
  unix : Int
  nsec : Nat
deriving DecidableEq, Repr

/-- The zero `time.Time`, January 1 of year 1, which a map lookup yields for
a missing key. -/
def Time.zero : Time := ⟨-62135596800, 0⟩

/-- Reduction of an integer to the range of `int64` (two's complement). -/
def wrapInt64 (x : Int) : Int := (x + 2 ^ 63) % 2 ^ 64 - 2 ^ 63

/-- The mutable state the handler works on. -/
structure World where
  /-- The global `wireless_client_last_connect`. -/
  wireless_client_last_connect : String → Option Time
  /-- How many times `time.Now()` has been called. -/
  clock : Nat
  /-- The scripts handed to `/bin/sh -c`, oldest first. -/
  ran : List String

/-- Map assignment `m[key] = t`. -/
def mapSet (m : String → Option Time) (key : String) (t : Time) : String → Option Time :=
  fun k => if k = key then some t else m k

/-- What the program takes from its platform and libraries. -/
structure Env where
  /-- Size of `int` in bits (`strconv.IntSize`). -/
  intSize : Nat
  /-- The value of the `n`-th call of `time.Now()`. -/
  now : Nat → Time
  /-- Exit code (`cmd.ProcessState.ExitCode()`) and combined output of the
  `n`-th script run. -/
  sh : Nat → String → Int × String
  /-- Whether iterating `unicode.SimpleFold` from a rune reaches a larger,
  non-ASCII rune. -/
  simpleFoldReaches : Char → Char → Bool
  /-- Decoding of a request body with `json.Unmarshal` into a `Payload`: the
  payload or the decoder's error text. -/
  unmarshal : List UInt8 → Except String Payload
  /-- Go `strconv.Quote`. -/
  quote : String → String

/-- Statement `time.Now()`: the next reading of the clock. -/
def timeNow (env : Env) (w : World) : Time × World :=
  (env.now w.clock, { w with clock := w.clock + 1 })

/-! ## Errors and outcomes -/

/-- The error values the program builds. -/
inductive Error where
  | unsupportedEvent (name : String)
  | missingClientMac
  | invalidAction (rendered : String)
  | intervalNotANumber (num : String) (cause : NumErr)
  | commandFailed (exit_code : Int) (output : String)
  | unmarshalFailed (msg : String)
  | wrap (msg : String) (cause : Error)
deriving DecidableEq, Repr

/-- Method `Error()` of an error value. -/
def Error.text (env : Env) : Error → String
  | .unsupportedEvent name => "event name \"" ++ name ++ "\" is not supported"
  | .missingClientMac =>
    "mandatory key \"client_mac_address\" is missing from event params"
  | .invalidAction rendered =>
    "mandatory key \"action\" is missing or has invalid value: " ++ rendered
  | .intervalNotANumber num cause =>
    "interval is not a number: strconv.Atoi: parsing " ++ env.quote num ++ ": " ++
      (match cause with
       | .errSyntax => "invalid syntax"
       | .errRange => "value out of range")
  | .commandFailed exit_code output =>
    "running command failed with code " ++ toString exit_code ++ ", output: " ++ output
  | .unmarshalFailed msg => msg
  | .wrap msg cause => msg ++ ": " ++ cause.text env

/-- How a call ends: it returns `nil`, returns an error, or panics. -/
inductive Outcome where
  | ok
  | err (e : Error)
  | panic
deriving DecidableEq, Repr

/-! ## The program -/

/-- Comparison `v == s` of an interface value with a string constant: true
only for a string of the same content. -/
def Value.isStr (v : Value) (s : String) : Bool :=
  match v with
  | .str t => t = s
  | _ => false

/-- The condition `!ok || action != "AP-STA-CONNECTED" && action !=
"AP-STA-DISCONNECTED"` on the result of `params["action"]`. -/
def actionInvalid (action : Option Value) : Bool :=
  match action with
  | none => true
  | some a => !a.isStr "AP-STA-CONNECTED" && !a.isStr "AP-STA-DISCONNECTED"

/-- Function `verifyPayload`: `none` for `nil`. -/
def verifyPayload (payload : Payload) : Option Error :=
  if payload.event.name = "wireless_status_update" then
    let params := payload.event.params
    match mapGet params "client_mac_address" with
    | none => some .missingClientMac
    | some _ =>
      if actionInvalid (mapGet params "action") then
        some (.invalidAction (Sprintf_v ((mapGet params "action").getD .null)))
      else none
  else some (.unsupportedEvent payload.event.name)

/-- Lines 135-144 of `processPayload`: the interval is 3600 unless
`params["interval"]` is there, and then what `strconv.Atoi` reads from its
`%v` rendering. -/
def resolveInterval (env : Env) (params : Params) : Except Error Int :=
  match mapGet params "interval" with
  | none => .ok 3600
  | some client_interval =>
    match Atoi env.intSize (Sprintf_v client_interval) with
    | .ok client_interval_int => .ok client_interval_int
    | .error e => .error (.intervalNotANumber (Sprintf_v client_interval) e)

/-- Lines 158-163 of `processPayload`: the `%v` renderings of the elements
of `params["only_for"]`; `none` when the type assertion
`only_for_param.([]interface{})` panics. -/
def onlyForList (params : Params) : Option (List String) :=
  match mapGet params "only_for" with
  | none => some []
  | some (.list l) => some (l.map Sprintf_v)
  | some _ => none

/-- Lines 157 and 165-173 of `processPayload`: `should_execute`. -/
def shouldExecute (env : Env) (only_for : List String) (mac : String) : Bool :=
  if only_for.length > 0 then
    only_for.any (fun v => EqualFold env.simpleFoldReaches v mac)
  else true

/-- Lines 175-190 of `processPayload`: run the script if there is one. -/
def runAction (env : Env) (cmd : Option String) (w : World) : Outcome × World :=
  match cmd with
  | some action_script =>
    let r := env.sh w.ran.length action_script
    let w1 := { w with ran := w.ran ++ [action_script] }
    if r.1 ≠ 0 then (.err (.commandFailed r.1 r.2), w1) else (.ok, w1)
  | none => (.ok, w)

/-- Lines 146-192 of `processPayload`, reached with the string `mac` that
`client_mac_address.(string)` yields and the resolved `interval`: the
lookup of the last connect, the debounce condition, the update of the
timestamp, the `only_for` filter and the script. -/
def debounceAndRun (env : Env) (payload : Payload) (mac : String) (interval : Int)
    (w : World) : Outcome × World :=
  let found := w.wireless_client_last_connect mac
  let last_connect := found.getD Time.zero
  let w1 :=
    match found with
    | some _ => w
    | none =>
      let wa := (timeNow env w).2
      { wa with wireless_client_last_connect :=
          mapSet wa.wireless_client_last_connect mac (timeNow env w).1 }
  let event_connected :=
    ((mapGet payload.event.params "action").getD .null).isStr "AP-STA-CONNECTED"
  let t2 := (timeNow env w1).1
  let w2 := (timeNow env w1).2
  if wrapInt64 (t2.unix - last_connect.unix) > interval ∨ event_connected = true then
    let t3 := (timeNow env w2).1
    let w3 := (timeNow env w2).2
    let w4 := { w3 with wireless_client_last_connect :=
                  mapSet w3.wireless_client_last_connect mac t3 }
    match onlyForList payload.action.params with
    | none => (.panic, w4)
    | some only_for =>
      if shouldExecute env only_for mac then runAction env payload.action.cmd w4
      else (.ok, w4)
  else (.ok, w2)

/-- Function `processPayload`. -/
def processPayload (env : Env) (payload : Payload) (w : World) : Outcome × World :=
  if payload.event.name = "wireless_status_update" then
    let event_params := payload.event.params
    match mapGet event_params "client_mac_address" with
    | none => (.err .missingClientMac, w)
    | some client_mac_address =>
      if actionInvalid (mapGet event_params "action") then
        (.err (.invalidAction (Sprintf_s ((mapGet event_params "action").getD .null))), w)
      else
        match resolveInterval env payload.action.params with
        | .error e => (.err e, w)
        | .ok interval =>
          match client_mac_address with
          | .str mac => debounceAndRun env payload mac interval w
          | _ => (.panic, w)
  else (.err (.unsupportedEvent payload.event.name), w)

/-- Function `processBody`. -/
def processBody (env : Env) (body : List UInt8) (w : World) : Outcome × World :=
  match env.unmarshal body with
  | .error msg => (.err (.wrap "failed to unmarshal body bytes" (.unmarshalFailed msg)), w)
  | .ok payload =>
    match verifyPayload payload with
    | some e => (.err (.wrap "invalid payload" e), w)
    | none =>
      match processPayload env payload w with
      | (.err e, w1) => (.err (.wrap "failed executing payload" e), w1)
      | r => r

/-- An HTTP request as `handler` reads it: the method, the value of
`r.Header.Get("Content-Type")` and the bytes of the body, `none` when
reading the body fails. -/
structure Request where
  method : String
  contentType : String
  body : Option (List UInt8)

/-- What the client of `handler` gets: a response with a status code and a
body, or nothing when the handler panicked. -/
inductive Reply where
  | response (status : Nat) (body : String)
  | aborted
deriving DecidableEq, Repr

/-- Function `writeError`: the status code and the message as the body. -/
def writeError (code : Nat) (msg : String) : Reply := .response code msg

/-- Function `handler`; a handler that returns without writing answers with
status 200 and an empty body. -/
def handler (env : Env) (r : Request) (w : World) : Reply × World :=
  if r.method ≠ "POST" ∨ r.contentType ≠ "application/json" then
    (writeError 400 "Only POST requests with application/json Content-Type are allowed", w)
  else
    match r.body with
    | none => (writeError 500 "Failed to read request body", w)
    | some bodyBytes =>
      match processBody env bodyBytes w with
      | (.err e, w1) => (writeError 400 ("failed processing body: " ++ e.text env), w1)
      | (.panic, w1) => (.aborted, w1)
      | (.ok, w1) => (.response 200 "", w1)

/-! ## Vocabulary of the properties -/

/-- The clock reading line 154 compares with the last connect: the next
reading for a known client, the one after it for a new client, whose first
reading line 149 stores. -/
def gateTime (env : Env) (w : World) (mac : String) : Time :=
  match w.wireless_client_last_connect mac with
  | some _ => env.now w.clock
  | none => env.now (w.clock + 1)

/-- The debounce gate of line 154 is open: more than `interval` seconds lie
between the last connect (the zero time for a new client) and now, in
`int64` arithmetic, or the action is `AP-STA-CONNECTED`. -/
def gateOpen (env : Env) (payload : Payload) (mac : String) (interval : Int)
    (w : World) : Prop :=
  wrapInt64 ((gateTime env w mac).unix -
      ((w.wireless_client_last_connect mac).getD Time.zero).unix) > interval ∨
    mapGet payload.event.params "action" = some (.str "AP-STA-CONNECTED")

/-- The clock reading line 155 stores: the one after `gateTime`. -/
def stampTime (env : Env) (w : World) (mac : String) : Time :=
  match w.wireless_client_last_connect mac with
  | some _ => env.now (w.clock + 1)
  | none => env.now (w.clock + 2)

/-- The state after line 155: the entry of `mac` holds `stampTime`, the
clock has been read twice (three times for a new client), no script ran. -/
def stamped (env : Env) (w : World) (mac : String) : World :=
  { wireless_client_last_connect :=
      mapSet w.wireless_client_last_connect mac (stampTime env w mac)
    clock := match w.wireless_client_last_connect mac with
      | some _ => w.clock + 2
      | none => w.clock + 3
    ran := w.ran }

/-- The allow-list lets the client through: `only_for` is absent, or an
empty list, or a list with an entry whose rendering equals the client under
`strings.EqualFold`. -/
def allowListAdmits (env : Env) (params : Params) (mac : String) : Prop :=
  mapGet params "only_for" = none ∨ mapGet params "only_for" = some (.list []) ∨
    ∃ l v, mapGet params "only_for" = some (.list l) ∧ v ∈ l ∧
      EqualFold env.simpleFoldReaches (Sprintf_v v) mac = true

/-- The allow-list rejects the client: `only_for` is a non-empty list none
of whose entries equals the client under `strings.EqualFold`. -/
def allowListRejects (env : Env) (params : Params) (mac : String) : Prop :=
  ∃ l, mapGet params "only_for" = some (.list l) ∧ l ≠ [] ∧
    ∀ v ∈ l, EqualFold env.simpleFoldReaches (Sprintf_v v) mac = false

/-- Code point of a character after mapping `A`-`Z` to `a`-`z`. -/
def asciiLower (c : Char) : Nat :=
  if 65 ≤ c.toNat ∧ c.toNat ≤ 90 then c.toNat + 32 else c.toNat

/-- Two strings are case variants of each other: they agree once the
letters `A`-`Z` are mapped to `a`-`z`. -/
def caseVariant (s t : String) : Prop :=
  s.data.map asciiLower = t.data.map asciiLower

/-- The fact about the Unicode tables used for MAC addresses: an ASCII
character other than `K`, `k`, `S`, `s` has no case-folding partner outside
ASCII. -/
def asciiFoldsInAscii (reaches : Char → Char → Bool) : Prop :=
  ∀ c t : Char, c.toNat < 128 → c.toNat ≠ 75 → c.toNat ≠ 107 → c.toNat ≠ 83 →
    c.toNat ≠ 115 → 128 ≤ t.toNat → reaches c t = false

/-- A string reads as an integer: an optional sign followed by one or more
decimal digits. -/
def isIntegerLiteral (cs : List Char) : Bool :=
  match cs with
  | [] => false
  | c :: rest =>
    if c = '+' ∨ c = '-' then
      !rest.isEmpty && rest.all (fun d => decide (48 ≤ d.toNat ∧ d.toNat ≤ 57))
    else (c :: rest).all (fun d => decide (48 ≤ d.toNat ∧ d.toNat ≤ 57))

/-- A JSON value that is not numeric: `null`, a boolean, a list, an object,
or a string that does not read as an integer. -/
def Value.nonNumeric : Value → Prop
  | .num _ => False
  | .str s => isIntegerLiteral s.data = false
  | _ => True

/-! ## Sample inputs -/

/-- A sample environment: a 64-bit platform whose clock starts at `t0` and
advances one second per reading, a shell whose scripts end with `result`, a
decoder that yields `decoded` for every body, and the two case-folding
partners ASCII letters have outside ASCII (the Kelvin sign and the long s). -/
def sampleEnv (t0 : Int) (result : Int × String) (decoded : Except String Payload) : Env where
  intSize := 64
  now := fun n => ⟨t0 + n, 0⟩
  sh := fun _ _ => result
  simpleFoldReaches := fun c t =>
    ((c = 'K' ∨ c = 'k') ∧ t.toNat = 0x212A) ∨ ((c = 'S' ∨ c = 's') ∧ t.toNat = 0x17F)
  unmarshal := fun _ => decoded
  quote := fun s => "\"" ++ s ++ "\""

/-- A `wireless_status_update` payload with a string client, an action tag,
a script and the given action parameters. -/
def samplePayload (mac action : String) (cmd : Option String) (params : Params) : Payload :=
  { event := { name := "wireless_status_update"
               params := [("client_mac_address", .str mac), ("action", .str action)]
               separator := " " }
    action := { cmd := cmd, params := params } }

/-- A `wireless_status_update` payload with arbitrary event parameters. -/
def eventPayload (eventParams : Params) (cmd : Option String) (params : Params) : Payload :=
  { event := { name := "wireless_status_update", params := eventParams, separator := " " }
    action := { cmd := cmd, params := params } }

/-- A `POST` request with content type `application/json` and a readable
body. -/
def postJson (body : List UInt8) : Request :=
  { method := "POST", contentType := "application/json", body := some body }

/-- The state at start-up: an empty map, no clock reading, no script. -/
def emptyWorld : World := ⟨fun _ => none, 0, []⟩

/-- A state in which `mac` was last seen at `last`, after `clock` readings. -/
def seenWorld (mac : String) (last : Time) (clock : Nat) : World :=
  ⟨fun k => if k = mac then some last else none, clock, []⟩

/-- The JSON number of a whole number below one million, as `float64`
digits: `3600` is `0.36 × 10^4`. -/
def num3600 : Value := .num ⟨false, [3, 6], 4⟩

/-- Decimal digits of a natural number, most significant first (`fuel`
bounds their number); none for zero. -/
def decimalDigits : Nat → Nat → List Nat
  | 0, _ => []
  | fuel + 1, n => if n = 0 then [] else decimalDigits fuel (n / 10) ++ [n % 10]

/-- A digit list without its trailing zeros. -/
def stripTrailingZeros (l : List Nat) : List Nat :=
  (l.reverse.dropWhile (fun d => d = 0)).reverse

/-- The `float64` a JSON whole number `n` below `2^53` decodes to, in the
shortest-digits form of `strconv`: the decimal digits of `n` without the
trailing zeros, the decimal point after as many places as `n` has digits. -/
def wholeNumber (n : Nat) : Value :=
  .num ⟨false, stripTrailingZeros (decimalDigits 16 n), (decimalDigits 16 n).length⟩

/-- The errors of the checks both `verifyPayload` and the head of
`processPayload` make: event name, presence of `client_mac_address`, value
of `action`. -/
def Error.isValidation : Error → Bool
  | .unsupportedEvent _ => true
  | .missingClientMac => true
  | .invalidAction _ => true
  | _ => false

/-- Order of two times: by the second, then by the nanosecond. -/
def Time.le (a b : Time) : Prop :=
  a.unix < b.unix ∨ (a.unix = b.unix ∧ a.nsec ≤ b.nsec)

/-- The clock never goes back: a later reading is not before an earlier
one. -/
def clockMonotone (env : Env) : Prop :=
  ∀ i j : Nat, i ≤ j → Time.le (env.now i) (env.now j)

/-- No stored timestamp lies in the future: each is at most a reading of
the clock already taken. -/
def noFutureStamps (env : Env) (w : World) : Prop :=
  ∀ k t, w.wireless_client_last_connect k = some t →
    ∃ n, n < w.clock ∧ Time.le t (env.now n)

/-- A sequence of calls of `processPayload`, each on the state the one
before left. -/
def runCalls (env : Env) : List Payload → World → World
  | [], w => w
  | p :: ps, w => runCalls env ps (processPayload env p w).2

/-- The event's action is `AP-STA-CONNECTED` (`event_connected`). -/
def isConnected (payload : Payload) : Bool :=
  ((mapGet payload.event.params "action").getD .null).isStr "AP-STA-CONNECTED"

/-- An execution of a script in a sequence of calls: the Unix second of the
clock reading taken right before it (line 155) and whether the event was a
connect. -/
structure Execution where
  time : Int
  connected : Bool
deriving DecidableEq, Repr

/-- The executions in a sequence of calls of `processPayload`, in order: a
call counts when it handed a script to the shell. -/
def executions (env : Env) : List Payload → World → List Execution
  | [], _ => []
  | p :: ps, w =>
    if (processPayload env p w).2.ran.length > w.ran.length then
      ⟨(env.now ((processPayload env p w).2.clock - 1)).unix, isConnected p⟩ ::
        executions env ps (processPayload env p w).2
    else executions env ps (processPayload env p w).2

/-- A call in a trace for one client: a valid event of the client `mac` with
the interval resolving to `interval`, `only_for` absent and `cmd` present. -/
def plainCall (env : Env) (mac : String) (interval : Int) (p : Payload) : Prop :=
  verifyPayload p = none ∧
  mapGet p.event.params "client_mac_address" = some (.str mac) ∧
  resolveInterval env p.action.params = .ok interval ∧
  mapGet p.action.params "only_for" = none ∧
  p.action.cmd.isSome = true

/-- Two consecutive executions respect the window: the later one is for a
connect, or comes more than `interval` seconds after the earlier one. -/
def separated (interval : Int) (a b : Execution) : Prop :=
  b.connected = true ∨ b.time - a.time > interval

/-! ## Lemmas on the embedding -/

theorem verifyPayload_none (payload : Payload) :
    verifyPayload payload = none ↔
      payload.event.name = "wireless_status_update" ∧
      (∃ v, mapGet payload.event.params "client_mac_address" = some v) ∧
      actionInvalid (mapGet payload.event.params "action") = false := by
  unfold verifyPayload
  by_cases hn : payload.event.name = "wireless_status_update"
  · cases hm : mapGet payload.event.params "client_mac_address" with
    | none => simp [hn, hm]
    | some v =>
      cases ha : actionInvalid (mapGet payload.event.params "action") <;> simp [hn, hm, ha]
  · simp [hn]

theorem processPayload_valid (env : Env) (payload : Payload) (w : World) (mac : String)
    (interval : Int)
    (hv : verifyPayload payload = none)
    (hmac : mapGet payload.event.params "client_mac_address" = some (.str mac))
    (hint : resolveInterval env payload.action.params = .ok interval) :
    processPayload env payload w = debounceAndRun env payload mac interval w := by
  obtain ⟨hn, -, ha⟩ := (verifyPayload_none payload).1 hv
  unfold processPayload
  rw [if_pos hn]
  simp only [hmac, ha, hint]
  simp

theorem mapSet_mapSet (m : String → Option Time) (k : String) (a b : Time) :
    mapSet (mapSet m k a) k b = mapSet m k b := by
  funext x
  unfold mapSet
  by_cases h : x = k <;> simp [h]

theorem isStr_connected_iff (a : Option Value) :
    (a.getD .null).isStr "AP-STA-CONNECTED" = true ↔ a = some (.str "AP-STA-CONNECTED") := by
  cases a with
  | none => simp [Value.isStr]
  | some v => cases v <;> simp [Value.isStr]

/-- With the gate open, lines 146-155 leave the state `stamped` and the
rest of the call is the filter and the script. -/
theorem debounceAndRun_open (env : Env) (payload : Payload) (mac : String) (interval : Int)
    (w : World) (hgate : gateOpen env payload mac interval w) :
    debounceAndRun env payload mac interval w =
      match onlyForList payload.action.params with
      | none => (.panic, stamped env w mac)
      | some only_for =>
        if shouldExecute env only_for mac then
          runAction env payload.action.cmd (stamped env w mac)
        else (.ok, stamped env w mac) := by
  unfold gateOpen gateTime at hgate
  rw [← isStr_connected_iff] at hgate
  unfold debounceAndRun stamped stampTime
  cases hf : w.wireless_client_last_connect mac with
  | none =>
    rw [hf] at hgate
    simp only [timeNow, Option.getD_none, mapSet_mapSet] at hgate ⊢
    rw [if_pos hgate]
  | some last =>
    rw [hf] at hgate
    simp only [timeNow, Option.getD_some] at hgate ⊢
    rw [if_pos hgate]

/-- With the gate closed for a known client nothing but the clock moves. -/
theorem debounceAndRun_closed (env : Env) (payload : Payload) (mac : String)
    (interval : Int) (w : World) (last : Time)
    (hlast : w.wireless_client_last_connect mac = some last)
    (hgate : ¬ gateOpen env payload mac interval w) :
    debounceAndRun env payload mac interval w = (.ok, { w with clock := w.clock + 1 }) := by
  unfold gateOpen gateTime at hgate
  rw [← isStr_connected_iff] at hgate
  unfold debounceAndRun
  rw [hlast] at hgate
  simp only [hlast, timeNow, Option.getD_some] at hgate ⊢
  rw [if_neg hgate]

theorem shouldExecute_iff (env : Env) (l : List Value) (mac : String) :
    shouldExecute env (l.map Sprintf_v) mac = true ↔
      l = [] ∨ ∃ v, v ∈ l ∧ EqualFold env.simpleFoldReaches (Sprintf_v v) mac = true := by
  unfold shouldExecute
  cases l with
  | nil => simp
  | cons a t => simp [List.any_map]

theorem allowListAdmits_iff (env : Env) (params : Params) (mac : String) :
    allowListAdmits env params mac ↔
      ∃ only_for, onlyForList params = some only_for ∧
        shouldExecute env only_for mac = true := by
  unfold allowListAdmits onlyForList
  cases h : mapGet params "only_for" with
  | none => simp [shouldExecute]
  | some v =>
    cases v with
    | list l =>
      simp only [Option.some.injEq, Value.list.injEq, exists_eq_left', reduceCtorEq, false_or,
        shouldExecute_iff]
      constructor
      · rintro (h1 | ⟨l1, v, h1, h2, h3⟩)
        · exact Or.inl h1
        · subst h1; exact Or.inr ⟨v, h2, h3⟩
      · rintro (h1 | ⟨v, h2, h3⟩)
        · exact Or.inl h1
        · exact Or.inr ⟨l, v, rfl, h2, h3⟩
    | _ => simp

theorem runAction_some (env : Env) (c : String) (w : World) :
    runAction env (some c) w =
      (if (env.sh w.ran.length c).1 ≠ 0 then
          .err (.commandFailed (env.sh w.ran.length c).1 (env.sh w.ran.length c).2)
        else .ok,
       { w with ran := w.ran ++ [c] }) := by
  unfold runAction
  by_cases h : (env.sh w.ran.length c).1 = 0 <;> simp [h]

/-- Gate open, client admitted, script present: the script runs once, on
the state `stamped`. -/
theorem debounceAndRun_runs (env : Env) (payload : Payload) (mac : String) (interval : Int)
    (w : World) (c : String)
    (hgate : gateOpen env payload mac interval w)
    (hallow : allowListAdmits env payload.action.params mac)
    (hcmd : payload.action.cmd = some c) :
    debounceAndRun env payload mac interval w =
      (if (env.sh w.ran.length c).1 ≠ 0 then
          .err (.commandFailed (env.sh w.ran.length c).1 (env.sh w.ran.length c).2)
        else .ok,
       { stamped env w mac with ran := w.ran ++ [c] }) := by
  obtain ⟨l, hl, hs⟩ := (allowListAdmits_iff env payload.action.params mac).1 hallow
  rw [debounceAndRun_open env payload mac interval w hgate, hl]
  simp only [hs, if_true, hcmd, runAction_some]
  rfl

/-- Gate open, client not admitted: no script runs. -/
theorem debounceAndRun_not_admitted (env : Env) (payload : Payload) (mac : String)
    (interval : Int) (w : World)
    (hgate : gateOpen env payload mac interval w)
    (hallow : ¬ allowListAdmits env payload.action.params mac) :
    (debounceAndRun env payload mac interval w).2 = stamped env w mac := by
  rw [debounceAndRun_open env payload mac interval w hgate]
  cases hl : onlyForList payload.action.params with
  | none => rfl
  | some l =>
    have hs : ¬ shouldExecute env l mac = true := fun h =>
      hallow ((allowListAdmits_iff env payload.action.params mac).2 ⟨l, hl, h⟩)
    simp [hs]

theorem allowListRejects_not_admits (env : Env) (params : Params) (mac : String)
    (h : allowListRejects env params mac) : ¬ allowListAdmits env params mac := by
  obtain ⟨l, hl, hne, hall⟩ := h
  unfold allowListAdmits
  rw [hl]
  rintro (h1 | h1 | ⟨l1, v, h1, h2, h3⟩)
  · exact absurd h1 (by simp)
  · simp only [Option.some.injEq, Value.list.injEq] at h1
    exact hne h1
  · simp only [Option.some.injEq, Value.list.injEq] at h1
    subst h1
    rw [hall v h2] at h3
    exact absurd h3 (by simp)

theorem char_eq_of_toNat_eq {a b : Char} (h : a.toNat = b.toNat) : a = b := by
  have h2 := congrArg Char.ofNat h
  simpa using h2

/-- For an ASCII character without a partner outside ASCII, one step of
`strings.EqualFold` succeeds exactly on its case variants. -/
theorem foldRune_plain (reaches : Char → Char → Bool) (h : asciiFoldsInAscii reaches)
    (a b : Char) (ha : a.toNat < 128) (h1 : a.toNat ≠ 75) (h2 : a.toNat ≠ 107)
    (h3 : a.toNat ≠ 83) (h4 : a.toNat ≠ 115) :
    foldRune reaches a b = true ↔ asciiLower a = asciiLower b := by
  unfold foldRune asciiLower
  by_cases hab : a = b
  · subst hab; simp
  · have hne : a.toNat ≠ b.toNat := fun e => hab (char_eq_of_toNat_eq e)
    rw [if_neg hab]
    by_cases hb : b.toNat < 128
    · by_cases hlt : b.toNat < a.toNat
      · simp only [hlt, if_true, ha, decide_eq_true_eq]
        split_ifs <;> omega
      · simp only [hlt, if_false, hb, if_true, decide_eq_true_eq]
        split_ifs <;> omega
    · have hlt : ¬ b.toNat < a.toNat := by omega
      simp only [hlt, if_false, hb]
      rw [h a b ha h1 h2 h3 h4 (by omega)]
      split_ifs <;> simp <;> omega

theorem equalFoldRunes_plain (reaches : Char → Char → Bool) (h : asciiFoldsInAscii reaches) :
    ∀ (s t : List Char),
      (∀ c ∈ s, c.toNat < 128 ∧ c.toNat ≠ 75 ∧ c.toNat ≠ 107 ∧ c.toNat ≠ 83 ∧ c.toNat ≠ 115) →
      (equalFoldRunes reaches s t = true ↔ s.map asciiLower = t.map asciiLower) := by
  intro s
  induction s with
  | nil => intro t _; cases t <;> simp [equalFoldRunes]
  | cons a s ih =>
    intro t hs
    cases t with
    | nil => simp [equalFoldRunes]
    | cons b t =>
      obtain ⟨ha, h1, h2, h3, h4⟩ := hs a (List.mem_cons_self a s)
      have ih2 := ih t (fun c hc => hs c (List.mem_cons_of_mem a hc))
      simp only [equalFoldRunes, Bool.and_eq_true, List.map_cons, List.cons.injEq,
        foldRune_plain reaches h a b ha h1 h2 h3 h4, ih2]

theorem sampleEnv_asciiFoldsInAscii (t0 : Int) (result : Int × String)
    (decoded : Except String Payload) :
    asciiFoldsInAscii (sampleEnv t0 result decoded).simpleFoldReaches := by
  intro c t _ h1 h2 h3 h4 _
  have e1 : c ≠ 'K' := fun e => h1 (by rw [e]; rfl)
  have e2 : c ≠ 'k' := fun e => h2 (by rw [e]; rfl)
  have e3 : c ≠ 'S' := fun e => h3 (by rw [e]; rfl)
  have e4 : c ≠ 's' := fun e => h4 (by rw [e]; rfl)
  simp [sampleEnv, e1, e2, e3, e4]

theorem ran_ne_append (l : List String) (c : String) : l ≠ l ++ [c] := by
  intro h
  have h2 := congrArg List.length h
  simp at h2

theorem isStr_iff (a : Value) (s : String) : a.isStr s = true ↔ a = .str s := by
  cases a <;> simp [Value.isStr]

theorem actionInvalid_of_bad (a : Option Value)
    (h : a = none ∨ ∃ v, a = some v ∧ v ≠ .str "AP-STA-CONNECTED" ∧
      v ≠ .str "AP-STA-DISCONNECTED") :
    actionInvalid a = true := by
  rcases h with h | ⟨v, h, h1, h2⟩
  · subst h; rfl
  · subst h
    have e1 : v.isStr "AP-STA-CONNECTED" = false := by
      rw [← Bool.not_eq_true, isStr_iff]; exact h1
    have e2 : v.isStr "AP-STA-DISCONNECTED" = false := by
      rw [← Bool.not_eq_true, isStr_iff]; exact h2
    simp [actionInvalid, e1, e2]

/-- A body whose payload `verifyPayload` refuses: `processBody` returns the
wrapped error and `handler` answers 400, the state untouched. -/
theorem handler_of_invalid (env : Env) (payload : Payload) (w : World) (r : Request)
    (body : List UInt8) (e : Error)
    (hver : verifyPayload payload = some e)
    (hdec : env.unmarshal body = .ok payload)
    (hm : r.method = "POST") (hct : r.contentType = "application/json")
    (hb : r.body = some body) :
    processBody env body w = (.err (.wrap "invalid payload" e), w) ∧
    handler env r w =
      (.response 400 ("failed processing body: " ++ (Error.wrap "invalid payload" e).text env),
        w) := by
  have hpb : processBody env body w = (.err (.wrap "invalid payload" e), w) := by
    unfold processBody
    simp only [hdec, hver]
  refine ⟨hpb, ?_⟩
  unfold handler writeError
  simp only [hm, hct, hb, hpb]
  simp

theorem parseUintLoop_ok_digits (m : Nat) :
    ∀ (cs : List Char) (n k : Nat), parseUintLoop m cs n = .ok k →
      cs.all (fun d => decide (48 ≤ d.toNat ∧ d.toNat ≤ 57)) = true := by
  intro cs
  induction cs with
  | nil => intro n k _; rfl
  | cons c cs ih =>
    intro n k h
    unfold parseUintLoop at h
    by_cases hd : 48 ≤ c.toNat ∧ c.toNat ≤ 57
    · rw [if_pos hd] at h
      by_cases hr : n * 10 + (c.toNat - 48) > m
      · rw [if_pos hr] at h; exact absurd h (by simp)
      · rw [if_neg hr] at h
        simp only [List.all_cons, Bool.and_eq_true, decide_eq_true_eq]
        exact ⟨hd, ih _ _ h⟩
    · rw [if_neg hd] at h; exact absurd h (by simp)

/-- What `strconv.Atoi` accepts reads as an integer. -/
theorem Atoi_ok_isIntegerLiteral (intSize : Nat) (s : String) (k : Int)
    (h : Atoi intSize s = .ok k) : isIntegerLiteral s.data = true := by
  unfold Atoi at h
  cases hs : s.data with
  | nil => rw [hs] at h; exact absurd h (by simp)
  | cons c cs =>
    rw [hs] at h
    simp only at h
    unfold isIntegerLiteral
    by_cases hc : c = '+' ∨ c = '-'
    · simp only [hc, if_true] at h ⊢
      cases cs with
      | nil => exact absurd h (by simp)
      | cons d ds =>
        simp only at h
        cases hp : parseUintLoop (2 ^ intSize - 1) (d :: ds) 0 with
        | error e => rw [hp] at h; exact absurd h (by simp)
        | ok un =>
          have := parseUintLoop_ok_digits _ _ _ _ hp
          simpa using this
    · simp only [hc, if_false] at h ⊢
      cases hp : parseUintLoop (2 ^ intSize - 1) (c :: cs) 0 with
      | error e => rw [hp] at h; exact absurd h (by simp)
      | ok un => exact parseUintLoop_ok_digits _ _ _ _ hp

/-- The `%v` rendering of a value that is not numeric does not read as an
integer. -/
theorem nonNumeric_not_literal (v : Value) (h : v.nonNumeric) :
    isIntegerLiteral (Sprintf_v v).data = false := by
  cases v with
  | null => decide
  | bool b => cases b <;> decide
  | num f => exact absurd h (by simp [Value.nonNumeric])
  | str s => simpa [Value.nonNumeric, Sprintf_v, fmtV] using h
  | list l => simp [Sprintf_v, fmtV, isIntegerLiteral]
  | obj kvs =>
    have e : "map[".data = ['m', 'a', 'p', '['] := rfl
    simp [Sprintf_v, fmtV, isIntegerLiteral, e]

theorem resolveInterval_nonNumeric (env : Env) (params : Params) (v : Value)
    (hk : mapGet params "interval" = some v) (h : v.nonNumeric) :
    ∃ cause, resolveInterval env params = .error (.intervalNotANumber (Sprintf_v v) cause) := by
  unfold resolveInterval
  simp only [hk]
  cases ha : Atoi env.intSize (Sprintf_v v) with
  | error e => exact ⟨e, rfl⟩
  | ok k =>
    have h1 := Atoi_ok_isIntegerLiteral _ _ _ ha
    rw [nonNumeric_not_literal v h] at h1
    exact absurd h1 (by simp)

/-! ## C1: first sighting -/

/-- C1, as stated, fails: a client never seen before sends
`AP-STA-DISCONNECTED` with `interval` the string `"100000000000"` on a
64-bit platform at Unix time 1700000000; the payload passes `verifyPayload`,
the interval resolves to 100000000000, `only_for` is absent and `cmd` is
`echo hi`, yet `processPayload` returns `nil` without running the script,
because the seconds since the zero `time.Time` (63835596801) do not exceed
the interval. -/
theorem first_sighting_huge_interval_not_run :
    verifyPayload (samplePayload "AA:BB:CC:DD:EE:FF" "AP-STA-DISCONNECTED" (some "echo hi")
      [("interval", .str "100000000000")]) = none ∧
    emptyWorld.wireless_client_last_connect "AA:BB:CC:DD:EE:FF" = none ∧
    resolveInterval (sampleEnv 1700000000 (0, "") (.error ""))
      [("interval", .str "100000000000")] = .ok 100000000000 ∧
    (processPayload (sampleEnv 1700000000 (0, "") (.error ""))
      (samplePayload "AA:BB:CC:DD:EE:FF" "AP-STA-DISCONNECTED" (some "echo hi")
        [("interval", .str "100000000000")]) emptyWorld).1 = .ok ∧
    (processPayload (sampleEnv 1700000000 (0, "") (.error ""))
      (samplePayload "AA:BB:CC:DD:EE:FF" "AP-STA-DISCONNECTED" (some "echo hi")
        [("interval", .str "100000000000")]) emptyWorld).2.ran = [] := by
  refine ⟨by decide, rfl, rfl, by decide, by decide⟩

/-- C1, amended: for every payload accepted by `verifyPayload` whose
`client_mac_address` is a string not yet a key of
`wireless_client_last_connect`, with the allow-list admitting the client and
`cmd` present, `processPayload` runs the script and leaves the entry of the
client at the current time, provided the action is `AP-STA-CONNECTED` or the
resolved interval is below the seconds between the zero `time.Time` and now
(`now.Unix() + 62135596800` in `int64` arithmetic). -/
theorem first_sighting_executes (env : Env) (payload : Payload) (w : World) (mac c : String)
    (interval : Int)
    (hv : verifyPayload payload = none)
    (hmac : mapGet payload.event.params "client_mac_address" = some (.str mac))
    (hint : resolveInterval env payload.action.params = .ok interval)
    (hnew : w.wireless_client_last_connect mac = none)
    (hallow : allowListAdmits env payload.action.params mac)
    (hcmd : payload.action.cmd = some c)
    (hwin : mapGet payload.event.params "action" = some (.str "AP-STA-CONNECTED") ∨
      interval < wrapInt64 ((env.now (w.clock + 1)).unix - Time.zero.unix)) :
    (processPayload env payload w).2.ran = w.ran ++ [c] ∧
    (processPayload env payload w).2.wireless_client_last_connect mac
      = some (env.now (w.clock + 2)) := by
  have hgate : gateOpen env payload mac interval w := by
    unfold gateOpen gateTime
    rw [hnew]
    rcases hwin with h | h
    · exact Or.inr h
    · exact Or.inl h
  rw [processPayload_valid env payload w mac interval hv hmac hint,
    debounceAndRun_runs env payload mac interval w c hgate hallow hcmd]
  simp [stamped, stampTime, hnew, mapSet]

/-- Witness of C1 amended: a new client sends `AP-STA-DISCONNECTED` with
`interval` 3600 at Unix time 1700000000. -/
theorem first_sighting_executes_witness :
    (processPayload (sampleEnv 1700000000 (0, "") (.error ""))
      (samplePayload "AA:BB:CC:DD:EE:FF" "AP-STA-DISCONNECTED" (some "echo hi")
        [("interval", num3600)]) emptyWorld).2.ran = [] ++ ["echo hi"] ∧
    (processPayload (sampleEnv 1700000000 (0, "") (.error ""))
      (samplePayload "AA:BB:CC:DD:EE:FF" "AP-STA-DISCONNECTED" (some "echo hi")
        [("interval", num3600)]) emptyWorld).2.wireless_client_last_connect
          "AA:BB:CC:DD:EE:FF" = some ⟨1700000002, 0⟩ :=
  first_sighting_executes (sampleEnv 1700000000 (0, "") (.error ""))
    (samplePayload "AA:BB:CC:DD:EE:FF" "AP-STA-DISCONNECTED" (some "echo hi")
      [("interval", num3600)]) emptyWorld "AA:BB:CC:DD:EE:FF" "echo hi" 3600
    (by decide) rfl rfl rfl (Or.inl rfl) rfl (Or.inr (by decide))

/-! ## C2: debounced disconnect -/

/-- C2: for a client already in `wireless_client_last_connect` with
timestamp `last`, a valid `AP-STA-DISCONNECTED` event processed at a time
`now` with `now.Unix() - last.Unix() <= interval` makes `processPayload`
return `nil`, run no script and leave the map exactly as it was. -/
theorem debounced_disconnect_no_effect (env : Env) (payload : Payload) (w : World)
    (mac : String) (last : Time) (interval : Int)
    (hv : verifyPayload payload = none)
    (hmac : mapGet payload.event.params "client_mac_address" = some (.str mac))
    (hact : mapGet payload.event.params "action" = some (.str "AP-STA-DISCONNECTED"))
    (hint : resolveInterval env payload.action.params = .ok interval)
    (hlast : w.wireless_client_last_connect mac = some last)
    (hel : wrapInt64 ((env.now w.clock).unix - last.unix) ≤ interval) :
    (processPayload env payload w).1 = .ok ∧
    (processPayload env payload w).2.ran = w.ran ∧
    (processPayload env payload w).2.wireless_client_last_connect
      = w.wireless_client_last_connect := by
  have hgate : ¬ gateOpen env payload mac interval w := by
    unfold gateOpen gateTime
    rw [hlast, hact]
    simp only [Option.getD_some, Option.some.injEq, Value.str.injEq]
    rintro (h | h)
    · exact absurd hel (not_le.2 h)
    · exact absurd h (by decide)
  rw [processPayload_valid env payload w mac interval hv hmac hint,
    debounceAndRun_closed env payload mac interval w last hlast hgate]
  exact ⟨rfl, rfl, rfl⟩

/-- Witness of C2: the client recorded at Unix time 1700000000 sends
`AP-STA-DISCONNECTED` one second later with `interval` 3600. -/
theorem debounced_disconnect_no_effect_witness :
    wrapInt64 (((sampleEnv 1700000000 (0, "") (.error "")).now 1).unix - 1700000000) = 1 ∧
    (processPayload (sampleEnv 1700000000 (0, "") (.error ""))
      (samplePayload "AA:BB:CC:DD:EE:FF" "AP-STA-DISCONNECTED" (some "echo hi")
        [("interval", num3600)])
      (seenWorld "AA:BB:CC:DD:EE:FF" ⟨1700000000, 0⟩ 1)).1 = .ok ∧
    (processPayload (sampleEnv 1700000000 (0, "") (.error ""))
      (samplePayload "AA:BB:CC:DD:EE:FF" "AP-STA-DISCONNECTED" (some "echo hi")
        [("interval", num3600)])
      (seenWorld "AA:BB:CC:DD:EE:FF" ⟨1700000000, 0⟩ 1)).2.ran = [] ∧
    (processPayload (sampleEnv 1700000000 (0, "") (.error ""))
      (samplePayload "AA:BB:CC:DD:EE:FF" "AP-STA-DISCONNECTED" (some "echo hi")
        [("interval", num3600)])
      (seenWorld "AA:BB:CC:DD:EE:FF" ⟨1700000000, 0⟩ 1)).2.wireless_client_last_connect
      = (seenWorld "AA:BB:CC:DD:EE:FF" ⟨1700000000, 0⟩ 1).wireless_client_last_connect :=
  ⟨by decide,
   debounced_disconnect_no_effect (sampleEnv 1700000000 (0, "") (.error ""))
    (samplePayload "AA:BB:CC:DD:EE:FF" "AP-STA-DISCONNECTED" (some "echo hi")
      [("interval", num3600)])
    (seenWorld "AA:BB:CC:DD:EE:FF" ⟨1700000000, 0⟩ 1) "AA:BB:CC:DD:EE:FF"
    ⟨1700000000, 0⟩ 3600 (by decide) rfl rfl rfl (by decide) (by decide)⟩

/-! ## C3: connect bypasses the debounce -/

/-- C3: for every valid `AP-STA-CONNECTED` event, whatever the map holds
for the client and whatever the resolved interval, with the allow-list
admitting the client and `cmd` present, `processPayload` runs the script and
sets the entry of the client to the current time; it returns `nil` or the
script's failure. -/
theorem connect_bypasses_debounce (env : Env) (payload : Payload) (w : World) (mac c : String)
    (interval : Int)
    (hv : verifyPayload payload = none)
    (hmac : mapGet payload.event.params "client_mac_address" = some (.str mac))
    (hact : mapGet payload.event.params "action" = some (.str "AP-STA-CONNECTED"))
    (hint : resolveInterval env payload.action.params = .ok interval)
    (hallow : allowListAdmits env payload.action.params mac)
    (hcmd : payload.action.cmd = some c) :
    (processPayload env payload w).2.ran = w.ran ++ [c] ∧
    (processPayload env payload w).2.wireless_client_last_connect mac
      = some (stampTime env w mac) ∧
    (processPayload env payload w).1 =
      (if (env.sh w.ran.length c).1 ≠ 0 then
        .err (.commandFailed (env.sh w.ran.length c).1 (env.sh w.ran.length c).2)
       else .ok) := by
  have hgate : gateOpen env payload mac interval w := Or.inr hact
  rw [processPayload_valid env payload w mac interval hv hmac hint,
    debounceAndRun_runs env payload mac interval w c hgate hallow hcmd]
  simp [stamped, mapSet]

/-- Witness of C3: the client recorded at Unix time 1700000000 sends
`AP-STA-CONNECTED` one second later with `interval` 3600. -/
theorem connect_bypasses_debounce_witness :
    (processPayload (sampleEnv 1700000000 (0, "") (.error ""))
      (samplePayload "AA:BB:CC:DD:EE:FF" "AP-STA-CONNECTED" (some "echo hi")
        [("interval", num3600)])
      (seenWorld "AA:BB:CC:DD:EE:FF" ⟨1700000000, 0⟩ 1)).2.ran = [] ++ ["echo hi"] ∧
    (processPayload (sampleEnv 1700000000 (0, "") (.error ""))
      (samplePayload "AA:BB:CC:DD:EE:FF" "AP-STA-CONNECTED" (some "echo hi")
        [("interval", num3600)])
      (seenWorld "AA:BB:CC:DD:EE:FF" ⟨1700000000, 0⟩ 1)).2.wireless_client_last_connect
        "AA:BB:CC:DD:EE:FF" = some ⟨1700000002, 0⟩ :=
  have h := connect_bypasses_debounce (sampleEnv 1700000000 (0, "") (.error ""))
    (samplePayload "AA:BB:CC:DD:EE:FF" "AP-STA-CONNECTED" (some "echo hi")
      [("interval", num3600)])
    (seenWorld "AA:BB:CC:DD:EE:FF" ⟨1700000000, 0⟩ 1) "AA:BB:CC:DD:EE:FF" "echo hi" 3600
    (by decide) rfl rfl rfl (Or.inl rfl) rfl
  ⟨h.1, h.2.1⟩

/-! ## C4: the allow-list -/

/-- C4: whenever the debounce gate is open (valid event, `cmd` present),
`processPayload` runs the script iff `only_for` is absent, or an empty
list, or has an entry whose `%v` rendering equals `client_mac_address` under
`strings.EqualFold`, and otherwise runs nothing; in particular, with
`only_for = ["AA:BB:CC:DD:EE:FF"]` the script runs iff the client is a case
variant of that string (the Unicode tables giving the characters of a MAC
address no partner outside ASCII). -/
theorem allow_list_filter (env : Env) (payload : Payload) (w : World) (mac c : String)
    (interval : Int)
    (hv : verifyPayload payload = none)
    (hmac : mapGet payload.event.params "client_mac_address" = some (.str mac))
    (hint : resolveInterval env payload.action.params = .ok interval)
    (hgate : gateOpen env payload mac interval w)
    (hcmd : payload.action.cmd = some c) :
    ((processPayload env payload w).2.ran = w.ran ++ [c] ↔
      allowListAdmits env payload.action.params mac) ∧
    (¬ allowListAdmits env payload.action.params mac →
      (processPayload env payload w).2.ran = w.ran) ∧
    (asciiFoldsInAscii env.simpleFoldReaches →
      mapGet payload.action.params "only_for" = some (.list [.str "AA:BB:CC:DD:EE:FF"]) →
      ((processPayload env payload w).2.ran = w.ran ++ [c] ↔
        caseVariant mac "AA:BB:CC:DD:EE:FF")) := by
  rw [processPayload_valid env payload w mac interval hv hmac hint]
  have hno : ¬ allowListAdmits env payload.action.params mac →
      (debounceAndRun env payload mac interval w).2.ran = w.ran := by
    intro hn
    rw [debounceAndRun_not_admitted env payload mac interval w hgate hn]
    rfl
  have hiff : (debounceAndRun env payload mac interval w).2.ran = w.ran ++ [c] ↔
      allowListAdmits env payload.action.params mac := by
    constructor
    · intro hr
      by_contra hn
      rw [hno hn] at hr
      exact ran_ne_append w.ran c hr
    · intro ha
      rw [debounceAndRun_runs env payload mac interval w c hgate ha hcmd]
  refine ⟨hiff, hno, ?_⟩
  intro hfold honly
  rw [hiff]
  unfold allowListAdmits caseVariant
  rw [honly]
  have hplain : ∀ ch ∈ "AA:BB:CC:DD:EE:FF".data,
      ch.toNat < 128 ∧ ch.toNat ≠ 75 ∧ ch.toNat ≠ 107 ∧ ch.toNat ≠ 83 ∧ ch.toNat ≠ 115 := by
    decide
  have key := equalFoldRunes_plain env.simpleFoldReaches hfold "AA:BB:CC:DD:EE:FF".data
    mac.data hplain
  constructor
  · rintro (h1 | h1 | ⟨l, v, h1, h2, h3⟩)
    · exact absurd h1 (by simp)
    · exact absurd h1 (by simp)
    · simp only [Option.some.injEq, Value.list.injEq] at h1
      subst h1
      simp only [List.mem_singleton] at h2
      subst h2
      exact (key.1 h3).symm
  · intro hcv
    exact Or.inr (Or.inr ⟨_, _, rfl, List.mem_singleton_self _, key.2 hcv.symm⟩)

/-- Witness of C4: with `only_for = ["AA:BB:CC:DD:EE:FF"]` and the gate open
(`AP-STA-CONNECTED`), the client `aa:bb:cc:dd:ee:ff` has its script run. -/
theorem allow_list_filter_witness :
    caseVariant "aa:bb:cc:dd:ee:ff" "AA:BB:CC:DD:EE:FF" ∧
    (processPayload (sampleEnv 1700000000 (0, "") (.error ""))
      (samplePayload "aa:bb:cc:dd:ee:ff" "AP-STA-CONNECTED" (some "echo hi")
        [("only_for", .list [.str "AA:BB:CC:DD:EE:FF"])]) emptyWorld).2.ran
      = [] ++ ["echo hi"] :=
  have hcv : caseVariant "aa:bb:cc:dd:ee:ff" "AA:BB:CC:DD:EE:FF" := by
    unfold caseVariant; decide
  ⟨hcv,
   ((allow_list_filter (sampleEnv 1700000000 (0, "") (.error ""))
      (samplePayload "aa:bb:cc:dd:ee:ff" "AP-STA-CONNECTED" (some "echo hi")
        [("only_for", .list [.str "AA:BB:CC:DD:EE:FF"])]) emptyWorld
      "aa:bb:cc:dd:ee:ff" "echo hi" 3600 (by decide) rfl rfl (Or.inr rfl) rfl).2.2
      (sampleEnv_asciiFoldsInAscii 1700000000 (0, "") (.error "")) rfl).2 hcv⟩

/-! ## C5: a failing script keeps the timestamp -/

/-- C5: for every event that passes the debounce gate and the allow-list
with `cmd` present, a non-zero exit code makes `processPayload` return the
error that carries that code and the combined output, with the entry of the
client nevertheless set to the current time; a zero exit code makes it
return `nil`. -/
theorem command_failure_keeps_timestamp (env : Env) (payload : Payload) (w : World)
    (mac c : String) (interval : Int)
    (hv : verifyPayload payload = none)
    (hmac : mapGet payload.event.params "client_mac_address" = some (.str mac))
    (hint : resolveInterval env payload.action.params = .ok interval)
    (hgate : gateOpen env payload mac interval w)
    (hallow : allowListAdmits env payload.action.params mac)
    (hcmd : payload.action.cmd = some c) :
    ((env.sh w.ran.length c).1 ≠ 0 →
      (processPayload env payload w).1 =
        .err (.commandFailed (env.sh w.ran.length c).1 (env.sh w.ran.length c).2) ∧
      (processPayload env payload w).2.wireless_client_last_connect mac
        = some (stampTime env w mac)) ∧
    ((env.sh w.ran.length c).1 = 0 → (processPayload env payload w).1 = .ok) ∧
    (processPayload env payload w).2.ran = w.ran ++ [c] := by
  rw [processPayload_valid env payload w mac interval hv hmac hint,
    debounceAndRun_runs env payload mac interval w c hgate hallow hcmd]
  refine ⟨fun h => ⟨by simp [h], by simp [stamped, mapSet]⟩, fun h => by simp [h], rfl⟩

/-- Witness of C5: the script of a new client exits with code 2 and output
`boom`; the error carries both and the entry of the client is set. -/
theorem command_failure_keeps_timestamp_witness :
    (processPayload (sampleEnv 1700000000 (2, "boom") (.error ""))
      (samplePayload "AA:BB:CC:DD:EE:FF" "AP-STA-CONNECTED" (some "exit 2") []) emptyWorld).1
      = .err (.commandFailed 2 "boom") ∧
    (processPayload (sampleEnv 1700000000 (2, "boom") (.error ""))
      (samplePayload "AA:BB:CC:DD:EE:FF" "AP-STA-CONNECTED" (some "exit 2") [])
      emptyWorld).2.wireless_client_last_connect "AA:BB:CC:DD:EE:FF"
      = some ⟨1700000002, 0⟩ :=
  (command_failure_keeps_timestamp (sampleEnv 1700000000 (2, "boom") (.error ""))
    (samplePayload "AA:BB:CC:DD:EE:FF" "AP-STA-CONNECTED" (some "exit 2") []) emptyWorld
    "AA:BB:CC:DD:EE:FF" "exit 2" 3600 (by decide) rfl rfl (Or.inr rfl) (Or.inl rfl) rfl).1
    (by decide)

/-! ## C6: unsupported events -/

/-- C6: for every payload whose `event.name` is not exactly
`wireless_status_update`, `verifyPayload` returns an error, and so does
`processPayload` called directly; `processBody` returns an error without
running a script or touching the state, and `handler` answers 400 with a
body that begins `failed processing body: `. -/
theorem unsupported_event_rejected (env : Env) (payload : Payload) (w : World) (r : Request)
    (body : List UInt8)
    (hname : payload.event.name ≠ "wireless_status_update")
    (hdec : env.unmarshal body = .ok payload)
    (hm : r.method = "POST") (hct : r.contentType = "application/json")
    (hb : r.body = some body) :
    verifyPayload payload = some (.unsupportedEvent payload.event.name) ∧
    processPayload env payload w = (.err (.unsupportedEvent payload.event.name), w) ∧
    processBody env body w =
      (.err (.wrap "invalid payload" (.unsupportedEvent payload.event.name)), w) ∧
    handler env r w =
      (.response 400 ("failed processing body: " ++
        (Error.wrap "invalid payload" (.unsupportedEvent payload.event.name)).text env), w) := by
  have hver : verifyPayload payload = some (.unsupportedEvent payload.event.name) := by
    unfold verifyPayload; rw [if_neg hname]
  have hpp : processPayload env payload w =
      (.err (.unsupportedEvent payload.event.name), w) := by
    unfold processPayload; rw [if_neg hname]
  have h := handler_of_invalid env payload w r body _ hver hdec hm hct hb
  exact ⟨hver, hpp, h.1, h.2⟩

/-- Witness of C6: a body that decodes to an event named `dhcp_lease`. -/
theorem unsupported_event_rejected_witness :
    (handler (sampleEnv 1700000000 (0, "")
        (.ok ⟨⟨"dhcp_lease", [], " "⟩, ⟨some "echo hi", []⟩⟩)) (postJson []) emptyWorld).1
      = .response 400
        "failed processing body: invalid payload: event name \"dhcp_lease\" is not supported" :=
  congrArg Prod.fst
    (unsupported_event_rejected (sampleEnv 1700000000 (0, "")
        (.ok ⟨⟨"dhcp_lease", [], " "⟩, ⟨some "echo hi", []⟩⟩))
      ⟨⟨"dhcp_lease", [], " "⟩, ⟨some "echo hi", []⟩⟩ emptyWorld (postJson []) []
      (by decide) rfl rfl rfl rfl).2.2.2

/-! ## C7: missing or invalid required fields -/

/-- C7: for every `wireless_status_update` payload whose `event.params`
lacks `client_mac_address`, or lacks `action`, or has an `action` other than
the strings `AP-STA-CONNECTED` and `AP-STA-DISCONNECTED`, `verifyPayload`
returns an error, `processBody` returns it wrapped without reaching
`processPayload` (no script run, state unchanged), and `handler` answers
400. -/
theorem missing_fields_rejected (env : Env) (payload : Payload) (w : World) (r : Request)
    (body : List UInt8)
    (hname : payload.event.name = "wireless_status_update")
    (hbad : mapGet payload.event.params "client_mac_address" = none ∨
      mapGet payload.event.params "action" = none ∨
      ∃ a, mapGet payload.event.params "action" = some a ∧
        a ≠ .str "AP-STA-CONNECTED" ∧ a ≠ .str "AP-STA-DISCONNECTED")
    (hdec : env.unmarshal body = .ok payload)
    (hm : r.method = "POST") (hct : r.contentType = "application/json")
    (hb : r.body = some body) :
    ∃ e, verifyPayload payload = some e ∧
      processBody env body w = (.err (.wrap "invalid payload" e), w) ∧
      handler env r w =
        (.response 400
          ("failed processing body: " ++ (Error.wrap "invalid payload" e).text env), w) := by
  have hver : ∃ e, verifyPayload payload = some e := by
    unfold verifyPayload
    rw [if_pos hname]
    cases hmac : mapGet payload.event.params "client_mac_address" with
    | none => exact ⟨.missingClientMac, by simp only [hmac]⟩
    | some v =>
      have hact : actionInvalid (mapGet payload.event.params "action") = true := by
        apply actionInvalid_of_bad
        rcases hbad with h | h | h
        · rw [hmac] at h; exact absurd h (by simp)
        · exact Or.inl h
        · exact Or.inr h
      exact ⟨.invalidAction (Sprintf_v ((mapGet payload.event.params "action").getD .null)),
        by simp only [hmac, hact, if_true]⟩
  obtain ⟨e, he⟩ := hver
  have h := handler_of_invalid env payload w r body e he hdec hm hct hb
  exact ⟨e, he, h.1, h.2⟩

/-- Witness of C7: a body whose event has an `action` but no
`client_mac_address`. -/
theorem missing_fields_rejected_witness :
    ∃ e, verifyPayload (eventPayload [("action", .str "AP-STA-CONNECTED")] none []) = some e ∧
      processBody (sampleEnv 1700000000 (0, "")
          (.ok (eventPayload [("action", .str "AP-STA-CONNECTED")] none []))) [] emptyWorld
        = (.err (.wrap "invalid payload" e), emptyWorld) ∧
      handler (sampleEnv 1700000000 (0, "")
          (.ok (eventPayload [("action", .str "AP-STA-CONNECTED")] none []))) (postJson [])
          emptyWorld
        = (.response 400 ("failed processing body: " ++ (Error.wrap "invalid payload" e).text
            (sampleEnv 1700000000 (0, "")
              (.ok (eventPayload [("action", .str "AP-STA-CONNECTED")] none [])))),
           emptyWorld) :=
  missing_fields_rejected (sampleEnv 1700000000 (0, "")
      (.ok (eventPayload [("action", .str "AP-STA-CONNECTED")] none [])))
    (eventPayload [("action", .str "AP-STA-CONNECTED")] none []) emptyWorld (postJson []) []
    rfl (Or.inl rfl) rfl rfl rfl rfl

/-! ## C8: resolution of the interval -/

/-- C8: for a valid event, when `action.params` has no key `interval` the
debounce window is 3600; when the value of `interval` is not numeric (null,
a boolean, a list, an object, a string that does not read as an integer)
`processPayload` returns the error `interval is not a number`, before the
map is read or written, the clock read or a script run: the state is
returned as it was, also for a client never seen. -/
theorem interval_resolution (env : Env) (payload : Payload) (w : World)
    (hv : verifyPayload payload = none) :
    (mapGet payload.action.params "interval" = none →
      resolveInterval env payload.action.params = .ok 3600 ∧
      ∀ mac, mapGet payload.event.params "client_mac_address" = some (.str mac) →
        processPayload env payload w = debounceAndRun env payload mac 3600 w) ∧
    (∀ v, mapGet payload.action.params "interval" = some v → v.nonNumeric →
      ∃ cause,
        processPayload env payload w = (.err (.intervalNotANumber (Sprintf_v v) cause), w) ∧
        (Error.intervalNotANumber (Sprintf_v v) cause).text env =
          "interval is not a number: strconv.Atoi: parsing " ++ env.quote (Sprintf_v v) ++ ": " ++
            (match cause with
             | .errSyntax => "invalid syntax"
             | .errRange => "value out of range")) := by
  constructor
  · intro hnone
    have hr : resolveInterval env payload.action.params = .ok 3600 := by
      unfold resolveInterval; rw [hnone]
    exact ⟨hr, fun mac hmac => processPayload_valid env payload w mac 3600 hv hmac hr⟩
  · intro v hk hnn
    obtain ⟨cause, hc⟩ := resolveInterval_nonNumeric env payload.action.params v hk hnn
    obtain ⟨hn, ⟨m, hm⟩, ha⟩ := (verifyPayload_none payload).1 hv
    refine ⟨cause, ?_, rfl⟩
    unfold processPayload
    rw [if_pos hn]
    simp only [hm, ha, hc]
    simp

/-- Witness of C8: a client never seen sends `interval` as the string
`abc`; the call fails with a syntax error and the state is as before. -/
theorem interval_resolution_witness :
    ∃ cause,
      processPayload (sampleEnv 1700000000 (0, "") (.error ""))
        (samplePayload "AA:BB:CC:DD:EE:FF" "AP-STA-CONNECTED" (some "echo hi")
          [("interval", .str "abc")]) emptyWorld
        = (.err (.intervalNotANumber "abc" cause), emptyWorld) :=
  have h := (interval_resolution (sampleEnv 1700000000 (0, "") (.error ""))
    (samplePayload "AA:BB:CC:DD:EE:FF" "AP-STA-CONNECTED" (some "echo hi")
      [("interval", .str "abc")]) emptyWorld (by decide)).2 (.str "abc") rfl
    (by show isIntegerLiteral "abc".data = false; decide)
  h.imp (fun _ hc => hc.1)

/-! ## C9: panics -/

/-- C9 fails on the code at two payloads `verifyPayload` accepts.  With
`client_mac_address` the JSON number 123, the type assertion
`client_mac_address.(string)` panics: `processBody` returns neither `nil`
nor an error and `handler` writes no response.  With `only_for` the string
`AA:BB:CC:DD:EE:FF` instead of a list, `only_for_param.([]interface{})`
panics after the timestamp of the client has been written. -/
theorem non_string_fields_panic :
    verifyPayload (eventPayload [("client_mac_address", .num ⟨false, [1, 2, 3], 3⟩),
      ("action", .str "AP-STA-CONNECTED")] none []) = none ∧
    (processBody (sampleEnv 1700000000 (0, "")
      (.ok (eventPayload [("client_mac_address", .num ⟨false, [1, 2, 3], 3⟩),
        ("action", .str "AP-STA-CONNECTED")] none []))) [] emptyWorld).1 = .panic ∧
    (handler (sampleEnv 1700000000 (0, "")
      (.ok (eventPayload [("client_mac_address", .num ⟨false, [1, 2, 3], 3⟩),
        ("action", .str "AP-STA-CONNECTED")] none []))) (postJson []) emptyWorld).1
      = .aborted ∧
    verifyPayload (samplePayload "AA:BB:CC:DD:EE:FF" "AP-STA-CONNECTED" (some "echo hi")
      [("only_for", .str "AA:BB:CC:DD:EE:FF")]) = none ∧
    (processPayload (sampleEnv 1700000000 (0, "") (.error ""))
      (samplePayload "AA:BB:CC:DD:EE:FF" "AP-STA-CONNECTED" (some "echo hi")
        [("only_for", .str "AA:BB:CC:DD:EE:FF")]) emptyWorld).1 = .panic ∧
    (processPayload (sampleEnv 1700000000 (0, "") (.error ""))
      (samplePayload "AA:BB:CC:DD:EE:FF" "AP-STA-CONNECTED" (some "echo hi")
        [("only_for", .str "AA:BB:CC:DD:EE:FF")]) emptyWorld).2.wireless_client_last_connect
        "AA:BB:CC:DD:EE:FF" = some ⟨1700000002, 0⟩ := by
  refine ⟨by decide, by decide, by decide, by decide, by decide, by decide⟩

/-! ## C10: rejection by the allow-list -/

/-- C10, as stated, fails: the client `AA:BB:CC:DD:EE:FF`, recorded at Unix
time 1700000000, sends `AP-STA-CONNECTED` (gate open) with
`only_for = ["11:22:33:44:55:66"]` (client rejected); `processPayload`
returns `nil` and runs nothing, but the entry of the client has moved to
1700000002, so the map is not what it was. -/
theorem filter_rejection_moves_timestamp :
    verifyPayload (samplePayload "AA:BB:CC:DD:EE:FF" "AP-STA-CONNECTED" (some "echo hi")
      [("only_for", .list [.str "11:22:33:44:55:66"])]) = none ∧
    gateOpen (sampleEnv 1700000000 (0, "") (.error ""))
      (samplePayload "AA:BB:CC:DD:EE:FF" "AP-STA-CONNECTED" (some "echo hi")
        [("only_for", .list [.str "11:22:33:44:55:66"])]) "AA:BB:CC:DD:EE:FF" 3600
      (seenWorld "AA:BB:CC:DD:EE:FF" ⟨1700000000, 0⟩ 1) ∧
    allowListRejects (sampleEnv 1700000000 (0, "") (.error ""))
      [("only_for", .list [.str "11:22:33:44:55:66"])] "AA:BB:CC:DD:EE:FF" ∧
    (processPayload (sampleEnv 1700000000 (0, "") (.error ""))
      (samplePayload "AA:BB:CC:DD:EE:FF" "AP-STA-CONNECTED" (some "echo hi")
        [("only_for", .list [.str "11:22:33:44:55:66"])])
      (seenWorld "AA:BB:CC:DD:EE:FF" ⟨1700000000, 0⟩ 1)).2.wireless_client_last_connect
      ≠ (seenWorld "AA:BB:CC:DD:EE:FF" ⟨1700000000, 0⟩ 1).wireless_client_last_connect := by
  refine ⟨by decide, Or.inr rfl, ⟨_, rfl, by simp, ?_⟩, ?_⟩
  · intro v hv
    simp only [List.mem_singleton] at hv
    subst hv
    decide
  · intro h
    exact absurd (congrFun h "AA:BB:CC:DD:EE:FF") (by decide)

/-- C10, amended: for every valid event for which the debounce gate is open
but the allow-list rejects the client, `processPayload` returns `nil`, runs
no script and changes `wireless_client_last_connect` only in the entry of
the client, which it sets to the current time. -/
theorem filter_rejection_only_stamps (env : Env) (payload : Payload) (w : World)
    (mac : String) (interval : Int)
    (hv : verifyPayload payload = none)
    (hmac : mapGet payload.event.params "client_mac_address" = some (.str mac))
    (hint : resolveInterval env payload.action.params = .ok interval)
    (hgate : gateOpen env payload mac interval w)
    (hrej : allowListRejects env payload.action.params mac) :
    (processPayload env payload w).1 = .ok ∧
    (processPayload env payload w).2.ran = w.ran ∧
    (processPayload env payload w).2.wireless_client_last_connect mac
      = some (stampTime env w mac) ∧
    ∀ k, k ≠ mac →
      (processPayload env payload w).2.wireless_client_last_connect k
        = w.wireless_client_last_connect k := by
  have hno := allowListRejects_not_admits env payload.action.params mac hrej
  obtain ⟨l, hl, -, -⟩ := hrej
  have hlist : onlyForList payload.action.params = some (l.map Sprintf_v) := by
    unfold onlyForList; rw [hl]
  have hs : shouldExecute env (l.map Sprintf_v) mac = false := by
    rw [← Bool.not_eq_true]
    intro h
    exact hno ((allowListAdmits_iff env payload.action.params mac).2 ⟨_, hlist, h⟩)
  rw [processPayload_valid env payload w mac interval hv hmac hint,
    debounceAndRun_open env payload mac interval w hgate, hlist]
  simp only [hs]
  refine ⟨rfl, rfl, by simp [stamped, mapSet], fun k hk => by simp [stamped, mapSet, hk]⟩

/-- Witness of C10 amended: the rejected client of the counterexample. -/
theorem filter_rejection_only_stamps_witness :
    (processPayload (sampleEnv 1700000000 (0, "") (.error ""))
      (samplePayload "AA:BB:CC:DD:EE:FF" "AP-STA-CONNECTED" (some "echo hi")
        [("only_for", .list [.str "11:22:33:44:55:66"])])
      (seenWorld "AA:BB:CC:DD:EE:FF" ⟨1700000000, 0⟩ 1)).1 = .ok ∧
    (processPayload (sampleEnv 1700000000 (0, "") (.error ""))
      (samplePayload "AA:BB:CC:DD:EE:FF" "AP-STA-CONNECTED" (some "echo hi")
        [("only_for", .list [.str "11:22:33:44:55:66"])])
      (seenWorld "AA:BB:CC:DD:EE:FF" ⟨1700000000, 0⟩ 1)).2.ran = [] :=
  have h := filter_rejection_only_stamps (sampleEnv 1700000000 (0, "") (.error ""))
    (samplePayload "AA:BB:CC:DD:EE:FF" "AP-STA-CONNECTED" (some "echo hi")
      [("only_for", .list [.str "11:22:33:44:55:66"])])
    (seenWorld "AA:BB:CC:DD:EE:FF" ⟨1700000000, 0⟩ 1) "AA:BB:CC:DD:EE:FF" 3600
    (by decide) rfl rfl (Or.inr rfl)
    ⟨_, rfl, by simp, fun v hv => by
      simp only [List.mem_singleton] at hv
      subst hv
      decide⟩
  ⟨h.1, h.2.1⟩

/-! ## C11: what `verifyPayload` asks of `client_mac_address` -/

/-- C11, as stated, fails: a `wireless_status_update` payload whose
`client_mac_address` is the empty string, with the valid action
`AP-STA-CONNECTED`, is accepted by `verifyPayload`. -/
theorem verifyPayload_accepts_empty_mac :
    mapGet (samplePayload "" "AP-STA-CONNECTED" none []).event.params "client_mac_address"
      = some (.str "") ∧
    verifyPayload (samplePayload "" "AP-STA-CONNECTED" none []) = none := by
  refine ⟨rfl, by decide⟩

/-- C11, amended: `client_mac_address` must be present.  For every
`wireless_status_update` payload, `verifyPayload` returns an error when
`event.params` has no key `client_mac_address`, even when `action` is valid;
when the key holds a string, the empty string included, and `action` is
valid, it returns `nil`. -/
theorem client_mac_presence_checked (payload : Payload)
    (hname : payload.event.name = "wireless_status_update") :
    (mapGet payload.event.params "client_mac_address" = none →
      verifyPayload payload = some .missingClientMac) ∧
    (∀ s, mapGet payload.event.params "client_mac_address" = some (.str s) →
      actionInvalid (mapGet payload.event.params "action") = false →
      verifyPayload payload = none) := by
  constructor
  · intro h
    unfold verifyPayload
    rw [if_pos hname]
    simp only [h]
  · intro s h ha
    exact (verifyPayload_none payload).2 ⟨hname, ⟨_, h⟩, ha⟩

/-- Witness of C11 amended: an event with a valid action and no
`client_mac_address`. -/
theorem client_mac_presence_checked_witness :
    verifyPayload (eventPayload [("action", .str "AP-STA-CONNECTED")] none [])
      = some .missingClientMac :=
  (client_mac_presence_checked (eventPayload [("action", .str "AP-STA-CONNECTED")] none [])
    rfl).1 rfl

/-! ## C12: the transport guard -/

/-- C12: for every request whose method is not `POST` or whose content type
is not exactly `application/json`, `handler` writes status 400 with the body
`Only POST requests with application/json Content-Type are allowed` and
leaves the state as it was (`processBody` is not called); for a `POST`
request with content type `application/json` and a readable body, the
answer is status 200 with an empty body iff `processBody` returns `nil`, and
status 400 with `failed processing body: ` followed by the error text when
it returns an error. -/
theorem transport_guard (env : Env) (r : Request) (w : World) :
    (r.method ≠ "POST" ∨ r.contentType ≠ "application/json" →
      handler env r w =
        (.response 400 "Only POST requests with application/json Content-Type are allowed",
          w)) ∧
    (∀ body, r.method = "POST" → r.contentType = "application/json" →
      r.body = some body →
      ((handler env r w).1 = .response 200 "" ↔ (processBody env body w).1 = .ok) ∧
      (∀ e, (processBody env body w).1 = .err e →
        (handler env r w).1 = .response 400 ("failed processing body: " ++ e.text env)) ∧
      (handler env r w).2 = (processBody env body w).2) := by
  constructor
  · intro h
    unfold handler writeError
    rw [if_pos h]
  · intro body hm hct hb
    have hg : ¬ (r.method ≠ "POST" ∨ r.contentType ≠ "application/json") := by
      simp [hm, hct]
    unfold handler writeError
    rw [if_neg hg]
    simp only [hb]
    rcases hpb : processBody env body w with ⟨o, w1⟩
    cases o with
    | ok => simp
    | err e => simp
    | panic => simp

/-- Witness of C12: a `GET` request is refused with status 400; the state
is the one before. -/
theorem transport_guard_witness :
    handler (sampleEnv 1700000000 (0, "") (.error ""))
      ⟨"GET", "application/json", some []⟩ emptyWorld =
      (.response 400 "Only POST requests with application/json Content-Type are allowed",
        emptyWorld) :=
  (transport_guard (sampleEnv 1700000000 (0, "") (.error ""))
    ⟨"GET", "application/json", some []⟩ emptyWorld).1 (Or.inl (by decide))

/-! ## C13: the action tag -/

/-- C13, as stated, fails: the event whose `action` is `ap-sta-connected`
is refused by `verifyPayload` and by `processPayload` with the error for a
missing or invalid action. -/
theorem lowercase_action_rejected :
    verifyPayload (samplePayload "AA:BB:CC:DD:EE:FF" "ap-sta-connected" (some "echo hi") [])
      = some (.invalidAction "ap-sta-connected") ∧
    (processPayload (sampleEnv 1700000000 (0, "") (.error ""))
      (samplePayload "AA:BB:CC:DD:EE:FF" "ap-sta-connected" (some "echo hi") [])
      emptyWorld).1 = .err (.invalidAction "ap-sta-connected") := by
  refine ⟨by decide, by decide⟩

/-- C13, amended: the action tag is case-sensitive.  A
`wireless_status_update` event with `client_mac_address` present is accepted
by `verifyPayload` iff `params.action` is exactly the string
`AP-STA-CONNECTED` or the string `AP-STA-DISCONNECTED`; for every other
value, a difference in letter case included, `verifyPayload` and
`processPayload` both return the error for a missing or invalid action (the
value printed with `%+v` by the first, with `%s` by the second) and the
state is left as it was. -/
theorem action_tag_exact (env : Env) (payload : Payload) (w : World) (v : Value)
    (hname : payload.event.name = "wireless_status_update")
    (hmac : mapGet payload.event.params "client_mac_address" = some v) :
    (verifyPayload payload = none ↔
      (mapGet payload.event.params "action" = some (.str "AP-STA-CONNECTED") ∨
       mapGet payload.event.params "action" = some (.str "AP-STA-DISCONNECTED"))) ∧
    (¬ (mapGet payload.event.params "action" = some (.str "AP-STA-CONNECTED") ∨
        mapGet payload.event.params "action" = some (.str "AP-STA-DISCONNECTED")) →
      verifyPayload payload =
        some (.invalidAction
          (Sprintf_v ((mapGet payload.event.params "action").getD .null))) ∧
      processPayload env payload w =
        (.err (.invalidAction
          (Sprintf_s ((mapGet payload.event.params "action").getD .null))), w)) := by
  have hact : actionInvalid (mapGet payload.event.params "action") = false ↔
      (mapGet payload.event.params "action" = some (.str "AP-STA-CONNECTED") ∨
       mapGet payload.event.params "action" = some (.str "AP-STA-DISCONNECTED")) := by
    cases ha : mapGet payload.event.params "action" with
    | none => simp [actionInvalid]
    | some a =>
      simp only [actionInvalid, Bool.and_eq_false_iff, Bool.not_eq_false', isStr_iff,
        Option.some.injEq]
  constructor
  · rw [verifyPayload_none, hact]
    exact ⟨fun h => h.2.2, fun h => ⟨hname, ⟨v, hmac⟩, h⟩⟩
  · intro hbad
    have hinv : actionInvalid (mapGet payload.event.params "action") = true := by
      rw [← Bool.not_eq_false]
      exact fun h => hbad (hact.1 h)
    constructor
    · unfold verifyPayload
      rw [if_pos hname]
      simp only [hmac, hinv, if_true]
    · unfold processPayload
      rw [if_pos hname]
      simp only [hmac, hinv, if_true]

/-- Witness of C13 amended: the event whose `action` is `ap-sta-connected`
is refused by `verifyPayload` and by `processPayload`, each with the error
for an invalid action, the state untouched. -/
theorem action_tag_exact_witness :
    verifyPayload (samplePayload "AA:BB:CC:DD:EE:FF" "ap-sta-connected" (some "echo hi") [])
      = some (.invalidAction "ap-sta-connected") ∧
    processPayload (sampleEnv 1700000000 (0, "") (.error ""))
      (samplePayload "AA:BB:CC:DD:EE:FF" "ap-sta-connected" (some "echo hi") []) emptyWorld
      = (.err (.invalidAction "ap-sta-connected"), emptyWorld) :=
  (action_tag_exact (sampleEnv 1700000000 (0, "") (.error ""))
    (samplePayload "AA:BB:CC:DD:EE:FF" "ap-sta-connected" (some "echo hi") []) emptyWorld
    (.str "AA:BB:CC:DD:EE:FF") rfl rfl).2
    (by
      rintro (h | h)
      · exact absurd (Value.str.inj (Option.some.inj h)) (by decide)
      · exact absurd (Value.str.inj (Option.some.inj h)) (by decide))

theorem runAction_frame (env : Env) (cmd : Option String) (w : World) :
    (runAction env cmd w).2.wireless_client_last_connect = w.wireless_client_last_connect ∧
    (runAction env cmd w).2.clock = w.clock := by
  cases cmd with
  | none => exact ⟨rfl, rfl⟩
  | some c => rw [runAction_some]; exact ⟨rfl, rfl⟩

theorem runAction_none (env : Env) (w : World) : runAction env none w = (.ok, w) := rfl

/-- With the gate open the call ends with the entry of the client at
`stampTime` and the clock of `stamped`, whatever the filter and the script
do. -/
theorem debounceAndRun_open_frame (env : Env) (payload : Payload) (mac : String)
    (interval : Int) (w : World) (hgate : gateOpen env payload mac interval w) :
    (debounceAndRun env payload mac interval w).2.wireless_client_last_connect =
      mapSet w.wireless_client_last_connect mac (stampTime env w mac) ∧
    (debounceAndRun env payload mac interval w).2.clock = (stamped env w mac).clock := by
  rw [debounceAndRun_open env payload mac interval w hgate]
  cases onlyForList payload.action.params with
  | none => exact ⟨rfl, rfl⟩
  | some l =>
    by_cases hs : shouldExecute env l mac = true
    · simp only [hs, if_true]
      exact runAction_frame env payload.action.cmd (stamped env w mac)
    · simp only [hs]
      exact ⟨rfl, rfl⟩

/-- With the gate closed for a new client only line 149 has written. -/
theorem debounceAndRun_closed_new (env : Env) (payload : Payload) (mac : String)
    (interval : Int) (w : World)
    (hnew : w.wireless_client_last_connect mac = none)
    (hgate : ¬ gateOpen env payload mac interval w) :
    debounceAndRun env payload mac interval w =
      (.ok, { wireless_client_last_connect :=
                mapSet w.wireless_client_last_connect mac (env.now w.clock)
              clock := w.clock + 2
              ran := w.ran }) := by
  unfold gateOpen gateTime at hgate
  rw [← isStr_connected_iff] at hgate
  unfold debounceAndRun
  rw [hnew] at hgate
  simp only [hnew, timeNow, Option.getD_none] at hgate ⊢
  rw [if_neg hgate]

/-! ## C15: the gate opens after the window -/

/-- C15: for a client in `wireless_client_last_connect` with timestamp
`last` and a valid `AP-STA-DISCONNECTED` event processed at time `now`, the
debounce gate is open iff `now.Unix() - last.Unix() > interval` in `int64`
arithmetic; then the entry of the client is set to the current time and the
allow-list and the script are applied; otherwise, equality included, the
call returns `nil` and only the clock has been read. -/
theorem gate_opens_after_window (env : Env) (payload : Payload) (w : World) (mac : String)
    (last : Time) (interval : Int)
    (hv : verifyPayload payload = none)
    (hmac : mapGet payload.event.params "client_mac_address" = some (.str mac))
    (hact : mapGet payload.event.params "action" = some (.str "AP-STA-DISCONNECTED"))
    (hint : resolveInterval env payload.action.params = .ok interval)
    (hlast : w.wireless_client_last_connect mac = some last) :
    (gateOpen env payload mac interval w ↔
      wrapInt64 ((env.now w.clock).unix - last.unix) > interval) ∧
    (wrapInt64 ((env.now w.clock).unix - last.unix) > interval →
      (processPayload env payload w).2.wireless_client_last_connect mac
        = some (env.now (w.clock + 1)) ∧
      processPayload env payload w =
        match onlyForList payload.action.params with
        | none => (.panic, stamped env w mac)
        | some only_for =>
          if shouldExecute env only_for mac then
            runAction env payload.action.cmd (stamped env w mac)
          else (.ok, stamped env w mac)) ∧
    (wrapInt64 ((env.now w.clock).unix - last.unix) ≤ interval →
      processPayload env payload w = (.ok, { w with clock := w.clock + 1 })) := by
  have hiff : gateOpen env payload mac interval w ↔
      wrapInt64 ((env.now w.clock).unix - last.unix) > interval := by
    unfold gateOpen gateTime
    rw [hlast, hact]
    simp only [Option.getD_some, Option.some.injEq, Value.str.injEq]
    constructor
    · rintro (h | h)
      · exact h
      · exact absurd h (by decide)
    · exact fun h => Or.inl h
  rw [processPayload_valid env payload w mac interval hv hmac hint]
  refine ⟨hiff, fun h => ⟨?_, debounceAndRun_open env payload mac interval w (hiff.2 h)⟩,
    fun h => debounceAndRun_closed env payload mac interval w last hlast
      (fun hg => absurd (hiff.1 hg) (not_lt.2 h))⟩
  rw [(debounceAndRun_open_frame env payload mac interval w (hiff.2 h)).1]
  simp [mapSet, stampTime, hlast]

/-- Witness of C15: the client recorded at Unix time 1700000000 sends
`AP-STA-DISCONNECTED` with `interval` 3600 when the clock reads 1700003600,
exactly the interval later: nothing runs and the entry stays. -/
theorem gate_opens_after_window_witness :
    wrapInt64 (((sampleEnv 1700003600 (0, "") (.error "")).now 0).unix - 1700000000) = 3600 ∧
    processPayload (sampleEnv 1700003600 (0, "") (.error ""))
      (samplePayload "AA:BB:CC:DD:EE:FF" "AP-STA-DISCONNECTED" (some "echo hi")
        [("interval", num3600)])
      (seenWorld "AA:BB:CC:DD:EE:FF" ⟨1700000000, 0⟩ 0)
      = (.ok, { seenWorld "AA:BB:CC:DD:EE:FF" ⟨1700000000, 0⟩ 0 with clock := 0 + 1 }) :=
  ⟨by decide,
   (gate_opens_after_window (sampleEnv 1700003600 (0, "") (.error ""))
    (samplePayload "AA:BB:CC:DD:EE:FF" "AP-STA-DISCONNECTED" (some "echo hi")
      [("interval", num3600)])
    (seenWorld "AA:BB:CC:DD:EE:FF" ⟨1700000000, 0⟩ 0) "AA:BB:CC:DD:EE:FF"
    ⟨1700000000, 0⟩ 3600 (by decide) rfl rfl rfl (by decide)).2.2 (by decide)⟩

/-! ## C16: whole-number intervals -/

/-- C16 fails on the code at the JSON number 1000000: `encoding/json`
decodes it into a `float64`, which `%v` renders as `1e+06`; `strconv.Atoi`
refuses that, and `processPayload` returns the error `interval is not a
number` without touching the state.  The whole numbers 60, 3600 and 999999
render as their digits and are used as the interval. -/
theorem million_interval_rejected :
    Sprintf_v (wholeNumber 1000000) = "1e+06" ∧
    resolveInterval (sampleEnv 1700000000 (0, "") (.error ""))
      [("interval", wholeNumber 1000000)]
      = .error (.intervalNotANumber "1e+06" .errSyntax) ∧
    (processPayload (sampleEnv 1700000000 (0, "") (.error ""))
      (samplePayload "AA:BB:CC:DD:EE:FF" "AP-STA-CONNECTED" (some "echo hi")
        [("interval", wholeNumber 1000000)]) emptyWorld).1
      = .err (.intervalNotANumber "1e+06" .errSyntax) ∧
    (processPayload (sampleEnv 1700000000 (0, "") (.error ""))
      (samplePayload "AA:BB:CC:DD:EE:FF" "AP-STA-CONNECTED" (some "echo hi")
        [("interval", wholeNumber 1000000)]) emptyWorld).2.ran = [] ∧
    resolveInterval (sampleEnv 1700000000 (0, "") (.error ""))
      [("interval", wholeNumber 60)] = .ok 60 ∧
    resolveInterval (sampleEnv 1700000000 (0, "") (.error ""))
      [("interval", wholeNumber 3600)] = .ok 3600 ∧
    resolveInterval (sampleEnv 1700000000 (0, "") (.error ""))
      [("interval", wholeNumber 999999)] = .ok 999999 := by
  refine ⟨by decide, rfl, by decide, by decide, rfl, rfl, rfl⟩

/-! ## C17: no script -/

/-- C17: for every valid event with `action.cmd` absent, every state, every
resolved interval and `only_for` absent or a list, `processPayload` returns
`nil` and runs no script; no entry but that of the client changes, and that
entry is set to the current time when the gate is open, to the reading of
line 149 when the gate is shut and the client is new, and is left alone
when the gate is shut and the client is known. -/
theorem absent_command_noop (env : Env) (payload : Payload) (w : World) (mac : String)
    (interval : Int)
    (hv : verifyPayload payload = none)
    (hmac : mapGet payload.event.params "client_mac_address" = some (.str mac))
    (hint : resolveInterval env payload.action.params = .ok interval)
    (hcmd : payload.action.cmd = none)
    (honly : mapGet payload.action.params "only_for" = none ∨
      ∃ l, mapGet payload.action.params "only_for" = some (.list l)) :
    (processPayload env payload w).1 = .ok ∧
    (processPayload env payload w).2.ran = w.ran ∧
    (∀ k, k ≠ mac → (processPayload env payload w).2.wireless_client_last_connect k
      = w.wireless_client_last_connect k) ∧
    (gateOpen env payload mac interval w →
      (processPayload env payload w).2.wireless_client_last_connect mac
        = some (stampTime env w mac)) ∧
    (¬ gateOpen env payload mac interval w → w.wireless_client_last_connect mac = none →
      (processPayload env payload w).2.wireless_client_last_connect mac
        = some (env.now w.clock)) ∧
    (¬ gateOpen env payload mac interval w →
      ∀ last, w.wireless_client_last_connect mac = some last →
        (processPayload env payload w).2.wireless_client_last_connect
          = w.wireless_client_last_connect) := by
  rw [processPayload_valid env payload w mac interval hv hmac hint]
  have hlist : ∃ l, onlyForList payload.action.params = some l := by
    unfold onlyForList
    rcases honly with h | ⟨l, h⟩
    · rw [h]; exact ⟨_, rfl⟩
    · rw [h]; exact ⟨_, rfl⟩
  obtain ⟨l, hl⟩ := hlist
  by_cases hgate : gateOpen env payload mac interval w
  · have hrun : debounceAndRun env payload mac interval w = (.ok, stamped env w mac) := by
      rw [debounceAndRun_open env payload mac interval w hgate, hl]
      by_cases hs : shouldExecute env l mac = true
      · simp only [hs, if_true, hcmd, runAction_none]
      · simp only [hs]
        rfl
    rw [hrun]
    refine ⟨rfl, rfl, fun k hk => by simp [stamped, mapSet, hk],
      fun _ => by simp [stamped, mapSet], fun h => absurd hgate h, fun h => absurd hgate h⟩
  · cases hf : w.wireless_client_last_connect mac with
    | none =>
      rw [debounceAndRun_closed_new env payload mac interval w hf hgate]
      refine ⟨rfl, rfl, fun k hk => by simp [mapSet, hk], fun h => absurd h hgate,
        fun _ _ => by simp [mapSet], fun _ last h => absurd h (by simp)⟩
    | some last =>
      rw [debounceAndRun_closed env payload mac interval w last hf hgate]
      refine ⟨rfl, rfl, fun k _ => rfl, fun h => absurd h hgate,
        fun _ h => absurd h (by simp), fun _ _ _ => rfl⟩

/-- Witness of C17: a new client sends `AP-STA-CONNECTED` without `cmd`. -/
theorem absent_command_noop_witness :
    (processPayload (sampleEnv 1700000000 (0, "") (.error ""))
      (samplePayload "AA:BB:CC:DD:EE:FF" "AP-STA-CONNECTED" none []) emptyWorld).1 = .ok ∧
    (processPayload (sampleEnv 1700000000 (0, "") (.error ""))
      (samplePayload "AA:BB:CC:DD:EE:FF" "AP-STA-CONNECTED" none []) emptyWorld).2.ran = [] :=
  have h := absent_command_noop (sampleEnv 1700000000 (0, "") (.error ""))
    (samplePayload "AA:BB:CC:DD:EE:FF" "AP-STA-CONNECTED" none []) emptyWorld
    "AA:BB:CC:DD:EE:FF" 3600 (by decide) rfl rfl rfl (Or.inl rfl)
  ⟨h.1, h.2.1⟩

/-! ## C18: the checks at the head of `processPayload` -/

/-- The errors `debounceAndRun` can return are those of a failed script. -/
theorem debounceAndRun_err (env : Env) (payload : Payload) (mac : String) (interval : Int)
    (w : World) (e : Error) (h : (debounceAndRun env payload mac interval w).1 = .err e) :
    ∃ code out, e = .commandFailed code out := by
  by_cases hgate : gateOpen env payload mac interval w
  · rw [debounceAndRun_open env payload mac interval w hgate] at h
    cases hl : onlyForList payload.action.params with
    | none => rw [hl] at h; exact absurd h (by simp)
    | some l =>
      rw [hl] at h
      by_cases hs : shouldExecute env l mac = true
      · simp only [hs, if_true] at h
        cases hc : payload.action.cmd with
        | none => rw [hc, runAction_none] at h; exact absurd h (by simp)
        | some c =>
          rw [hc, runAction_some] at h
          by_cases hz : (env.sh (stamped env w mac).ran.length c).1 = 0
          · simp [hz] at h
          · simp only [ne_eq, hz, not_false_eq_true, if_true, Outcome.err.injEq] at h
            exact ⟨_, _, h.symm⟩
      · simp only [hs] at h
        exact absurd h (by simp)
  · cases hf : w.wireless_client_last_connect mac with
    | none =>
      rw [debounceAndRun_closed_new env payload mac interval w hf hgate] at h
      exact absurd h (by simp)
    | some last =>
      rw [debounceAndRun_closed env payload mac interval w last hf hgate] at h
      exact absurd h (by simp)

/-- C18: the checks at the head of `processPayload` (event name, presence of
`client_mac_address`, value of `action`) fail exactly when `verifyPayload`
fails, and then `processPayload` returns with the state as it was; for a
payload `verifyPayload` accepts, the only errors `processPayload` can
return are the interval error and the error of a failed script. -/
theorem revalidation_agrees (env : Env) (payload : Payload) (w : World) :
    (verifyPayload payload ≠ none ↔
      ∃ e, processPayload env payload w = (.err e, w) ∧ e.isValidation = true) ∧
    (verifyPayload payload = none → ∀ e, (processPayload env payload w).1 = .err e →
      (∃ num cause, e = .intervalNotANumber num cause) ∨
      (∃ code out, e = .commandFailed code out)) := by
  have hacc : verifyPayload payload = none → ∀ e, (processPayload env payload w).1 = .err e →
      (∃ num cause, e = .intervalNotANumber num cause) ∨
      (∃ code out, e = .commandFailed code out) := by
    intro hv e he
    obtain ⟨hn, ⟨m, hm⟩, ha⟩ := (verifyPayload_none payload).1 hv
    unfold processPayload at he
    rw [if_pos hn] at he
    simp only [hm, ha] at he
    cases hr : resolveInterval env payload.action.params with
    | error e1 =>
      simp only [hr, Bool.false_eq_true, if_false, Outcome.err.injEq] at he
      unfold resolveInterval at hr
      cases hk : mapGet payload.action.params "interval" with
      | none => simp only [hk] at hr; exact absurd hr (by simp)
      | some v =>
        simp only [hk] at hr
        cases ha2 : Atoi env.intSize (Sprintf_v v) with
        | ok n => simp only [ha2] at hr; exact absurd hr (by simp)
        | error c =>
          simp only [ha2, Except.error.injEq] at hr
          exact Or.inl ⟨_, _, by rw [← he, ← hr]⟩
    | ok interval =>
      simp only [hr, Bool.false_eq_true, if_false] at he
      cases m with
      | str mac => exact Or.inr (debounceAndRun_err env payload mac interval w e he)
      | _ => exact absurd he (by simp)
  refine ⟨⟨?_, ?_⟩, hacc⟩
  · intro hne
    unfold verifyPayload at hne
    unfold processPayload
    by_cases hn : payload.event.name = "wireless_status_update"
    · rw [if_pos hn] at hne ⊢
      cases hm : mapGet payload.event.params "client_mac_address" with
      | none => exact ⟨.missingClientMac, by simp only [hm], rfl⟩
      | some v =>
        simp only [hm] at hne
        cases ha : actionInvalid (mapGet payload.event.params "action") with
        | false => simp [ha] at hne
        | true =>
          exact ⟨.invalidAction (Sprintf_s ((mapGet payload.event.params "action").getD .null)),
            by simp only [hm, ha, if_true], rfl⟩
    · rw [if_neg hn]
      exact ⟨_, rfl, rfl⟩
  · rintro ⟨e, he, hval⟩ hv
    rcases hacc hv e (by rw [he]) with ⟨n, c, h⟩ | ⟨c, o, h⟩
    · rw [h] at hval; exact absurd hval (by simp [Error.isValidation])
    · rw [h] at hval; exact absurd hval (by simp [Error.isValidation])

/-- Witness of C18: an accepted payload whose script exits with code 2
makes `processPayload` return the error of the failed script. -/
theorem revalidation_agrees_witness :
    (processPayload (sampleEnv 1700000000 (2, "boom") (.error ""))
      (samplePayload "AA:BB:CC:DD:EE:FF" "AP-STA-CONNECTED" (some "exit 2") [])
      emptyWorld).1 = .err (.commandFailed 2 "boom") ∧
    ((∃ num cause, Error.commandFailed 2 "boom" = .intervalNotANumber num cause) ∨
     (∃ code out, Error.commandFailed 2 "boom" = .commandFailed code out)) :=
  ⟨by decide,
   (revalidation_agrees (sampleEnv 1700000000 (2, "boom") (.error ""))
    (samplePayload "AA:BB:CC:DD:EE:FF" "AP-STA-CONNECTED" (some "exit 2") []) emptyWorld).2
    (by decide) (.commandFailed 2 "boom") (by decide)⟩

theorem Time.le_refl (a : Time) : Time.le a a := Or.inr ⟨rfl, Nat.le_refl _⟩

theorem Time.le_trans {a b c : Time} (h1 : Time.le a b) (h2 : Time.le b c) : Time.le a c := by
  unfold Time.le at *
  omega

theorem Time.le_unix {a b : Time} (h : Time.le a b) : a.unix ≤ b.unix := by
  unfold Time.le at h
  omega

/-- Reduction to `int64` never enlarges a difference that is not negative. -/
theorem wrapInt64_le (x : Int) (h0 : 0 ≤ x) : wrapInt64 x ≤ x := by
  unfold wrapInt64; omega

/-- What one call of lines 146-192 does to the map and the clock: the clock
advances, and an entry either stays or is the client's and holds a reading
taken during the call. -/
theorem debounceAndRun_frame (env : Env) (payload : Payload) (mac : String) (interval : Int)
    (w : World) :
    w.clock < (debounceAndRun env payload mac interval w).2.clock ∧
    ∀ k, (debounceAndRun env payload mac interval w).2.wireless_client_last_connect k
        = w.wireless_client_last_connect k ∨
      (k = mac ∧ ∃ n, w.clock ≤ n ∧ n < (debounceAndRun env payload mac interval w).2.clock ∧
        (debounceAndRun env payload mac interval w).2.wireless_client_last_connect k
          = some (env.now n)) := by
  by_cases hgate : gateOpen env payload mac interval w
  · obtain ⟨hm, hc⟩ := debounceAndRun_open_frame env payload mac interval w hgate
    rw [hm, hc]
    unfold stamped stampTime mapSet
    cases hf : w.wireless_client_last_connect mac with
    | none =>
      refine ⟨by simp, fun k => ?_⟩
      by_cases hk : k = mac
      · exact Or.inr ⟨hk, w.clock + 2, by simp [hk]⟩
      · exact Or.inl (by simp [hk])
    | some last =>
      refine ⟨by simp, fun k => ?_⟩
      by_cases hk : k = mac
      · exact Or.inr ⟨hk, w.clock + 1, by simp [hk]⟩
      · exact Or.inl (by simp [hk])
  · cases hf : w.wireless_client_last_connect mac with
    | none =>
      rw [debounceAndRun_closed_new env payload mac interval w hf hgate]
      refine ⟨by simp, fun k => ?_⟩
      by_cases hk : k = mac
      · exact Or.inr ⟨hk, w.clock, by simp [hk, mapSet]⟩
      · exact Or.inl (by simp [hk, mapSet])
    | some last =>
      rw [debounceAndRun_closed env payload mac interval w last hf hgate]
      exact ⟨by simp, fun k => Or.inl rfl⟩

/-- A call of `processPayload` either returns with the state as it was or
is a call of lines 146-192 for the string client of the event. -/
theorem processPayload_cases (env : Env) (payload : Payload) (w : World) :
    (∃ o, processPayload env payload w = (o, w)) ∨
    (∃ mac interval, mapGet payload.event.params "client_mac_address" = some (.str mac) ∧
      processPayload env payload w = debounceAndRun env payload mac interval w) := by
  unfold processPayload
  by_cases hn : payload.event.name = "wireless_status_update"
  · rw [if_pos hn]
    dsimp only
    cases hm : mapGet payload.event.params "client_mac_address" with
    | none => exact Or.inl ⟨_, rfl⟩
    | some v =>
      dsimp only
      by_cases ha : actionInvalid (mapGet payload.event.params "action") = true
      · rw [if_pos ha]; exact Or.inl ⟨_, rfl⟩
      · rw [if_neg ha]
        cases hr : resolveInterval env payload.action.params with
        | error e => exact Or.inl ⟨_, rfl⟩
        | ok interval =>
          cases v with
          | str mac => exact Or.inr ⟨mac, interval, rfl, rfl⟩
          | _ => exact Or.inl ⟨_, rfl⟩
  · rw [if_neg hn]; exact Or.inl ⟨_, rfl⟩

/-- The same for `processPayload`, on every payload: the clock does not go
back, and an entry either stays or is the one of the event's client and
holds a reading taken during the call. -/
theorem processPayload_frame (env : Env) (payload : Payload) (w : World) :
    w.clock ≤ (processPayload env payload w).2.clock ∧
    ∀ k, (processPayload env payload w).2.wireless_client_last_connect k
        = w.wireless_client_last_connect k ∨
      (mapGet payload.event.params "client_mac_address" = some (.str k) ∧
        ∃ n, w.clock ≤ n ∧ n < (processPayload env payload w).2.clock ∧
          (processPayload env payload w).2.wireless_client_last_connect k
            = some (env.now n)) := by
  rcases processPayload_cases env payload w with ⟨o, h⟩ | ⟨mac, interval, hm, h⟩
  · rw [h]; exact ⟨Nat.le_refl _, fun _ => Or.inl rfl⟩
  · rw [h]
    obtain ⟨h1, h2⟩ := debounceAndRun_frame env payload mac interval w
    refine ⟨Nat.le_of_lt h1, fun k => ?_⟩
    rcases h2 k with h | ⟨hk, h⟩
    · exact Or.inl h
    · exact Or.inr ⟨by rw [hk, hm], h⟩

theorem runCalls_frame (env : Env) (hmono : clockMonotone env) :
    ∀ (payloads : List Payload) (w : World), noFutureStamps env w →
      w.clock ≤ (runCalls env payloads w).clock ∧
      noFutureStamps env (runCalls env payloads w) ∧
      ∀ k t, w.wireless_client_last_connect k = some t →
        ∃ t', (runCalls env payloads w).wireless_client_last_connect k = some t' ∧
          Time.le t t' := by
  intro payloads
  induction payloads with
  | nil =>
    intro w hw
    exact ⟨Nat.le_refl _, hw, fun k t h => ⟨t, h, Time.le_refl t⟩⟩
  | cons p ps ih =>
    intro w hw
    obtain ⟨hc, hf⟩ := processPayload_frame env p w
    have hstep : ∀ k t, w.wireless_client_last_connect k = some t →
        ∃ t', (processPayload env p w).2.wireless_client_last_connect k = some t' ∧
          Time.le t t' := by
      intro k t hk
      rcases hf k with h | ⟨-, n, hn1, hn2, h⟩
      · exact ⟨t, by rw [h, hk], Time.le_refl t⟩
      · obtain ⟨m, hm1, hm2⟩ := hw k t hk
        exact ⟨_, h, Time.le_trans hm2 (hmono m n (by omega))⟩
    have hw1 : noFutureStamps env (processPayload env p w).2 := by
      intro k t hk
      rcases hf k with h | ⟨-, n, hn1, hn2, h⟩
      · rw [h] at hk
        obtain ⟨m, hm1, hm2⟩ := hw k t hk
        exact ⟨m, by omega, hm2⟩
      · rw [h] at hk
        simp only [Option.some.injEq] at hk
        exact ⟨n, hn2, by rw [← hk]; exact Time.le_refl _⟩
    obtain ⟨ic, iw, it⟩ := ih (processPayload env p w).2 hw1
    refine ⟨Nat.le_trans hc ic, iw, fun k t hk => ?_⟩
    obtain ⟨t1, h1, l1⟩ := hstep k t hk
    obtain ⟨t2, h2, l2⟩ := it k t1 h1
    exact ⟨t2, h2, Time.le_trans l1 l2⟩

theorem stamped_clock_pred (env : Env) (w : World) (mac : String) :
    env.now ((stamped env w mac).clock - 1) = stampTime env w mac ∧
    (stamped env w mac).wireless_client_last_connect mac = some (stampTime env w mac) := by
  unfold stamped stampTime
  cases hf : w.wireless_client_last_connect mac <;> simp [mapSet]

/-- A connect in a trace always executes: the call hands the script to the
shell right after the reading of line 155. -/
theorem executions_connect (env : Env) (mac : String) (interval : Int) (p : Payload)
    (ps : List Payload) (w : World) (hp : plainCall env mac interval p)
    (hconn : isConnected p = true) :
    executions env (p :: ps) w =
      ⟨(stampTime env w mac).unix, true⟩ :: executions env ps (processPayload env p w).2 := by
  obtain ⟨hv, hmac, hint, honly, hcmd⟩ := hp
  obtain ⟨c, hc⟩ := Option.isSome_iff_exists.1 hcmd
  have hgate : gateOpen env p mac interval w :=
    Or.inr ((isStr_connected_iff _).1 hconn)
  have hrun := debounceAndRun_runs env p mac interval w c hgate (Or.inl honly) hc
  rw [← processPayload_valid env p w mac interval hv hmac hint] at hrun
  have hclock : (processPayload env p w).2.clock = (stamped env w mac).clock := by
    rw [hrun]
  have hran : (processPayload env p w).2.ran.length > w.ran.length := by
    rw [hrun]; simp
  rw [executions, if_pos hran, hclock, (stamped_clock_pred env w mac).1, hconn]

theorem executions_chain (env : Env) (mac : String) (interval : Int)
    (hmono : clockMonotone env) :
    ∀ (payloads : List Payload) (w : World),
      (∀ p ∈ payloads, plainCall env mac interval p) →
      (∀ t, w.wireless_client_last_connect mac = some t →
        t.unix ≤ (env.now w.clock).unix →
        ∀ e ∈ (executions env payloads w).head?,
          e.connected = true ∨ e.time - t.unix > interval) ∧
      List.Chain' (separated interval) (executions env payloads w) := by
  intro payloads
  induction payloads with
  | nil => intro w _; exact ⟨fun t _ _ e he => by simp [executions] at he, List.chain'_nil⟩
  | cons p ps ih =>
    intro w hgood
    obtain ⟨hv, hmac, hint, honly, hcmd⟩ := hgood p (List.mem_cons_self p ps)
    have hps : ∀ q ∈ ps, plainCall env mac interval q :=
      fun q hq => hgood q (List.mem_cons_of_mem p hq)
    obtain ⟨c, hc⟩ := Option.isSome_iff_exists.1 hcmd
    have hpp := processPayload_valid env p w mac interval hv hmac hint
    have um : ∀ i j : Nat, i ≤ j → (env.now i).unix ≤ (env.now j).unix :=
      fun i j h => Time.le_unix (hmono i j h)
    obtain ⟨ihh, ihc⟩ := ih (processPayload env p w).2 hps
    by_cases hgate : gateOpen env p mac interval w
    · have hrun := debounceAndRun_runs env p mac interval w c hgate (Or.inl honly) hc
      rw [← hpp] at hrun
      obtain ⟨hidx, hst⟩ := stamped_clock_pred env w mac
      have hclock : (processPayload env p w).2.clock = (stamped env w mac).clock := by
        rw [hrun]
      have hmap : (processPayload env p w).2.wireless_client_last_connect mac
          = some (stampTime env w mac) := by rw [hrun]; exact hst
      have hran : (processPayload env p w).2.ran.length > w.ran.length := by
        rw [hrun]; simp
      have hle : (stampTime env w mac).unix ≤ (env.now (processPayload env p w).2.clock).unix := by
        rw [← hidx, hclock]
        exact um _ _ (Nat.sub_le _ _)
      have hex : executions env (p :: ps) w =
          ⟨(stampTime env w mac).unix, isConnected p⟩ ::
            executions env ps (processPayload env p w).2 := by
        rw [executions, if_pos hran, hclock, hidx]
      rw [hex]
      constructor
      · intro t ht hlt e he
        simp only [List.head?_cons, Option.mem_def, Option.some.injEq] at he
        subst he
        simp only
        unfold gateOpen gateTime at hgate
        rw [ht] at hgate
        simp only [Option.getD_some] at hgate
        rcases hgate with hg | hg
        · right
          have h2 := wrapInt64_le ((env.now w.clock).unix - t.unix) (by omega)
          have h3 : (env.now w.clock).unix ≤ (stampTime env w mac).unix := by
            unfold stampTime; rw [ht]; exact um _ _ (Nat.le_succ _)
          omega
        · left
          unfold isConnected
          exact (isStr_connected_iff _).2 hg
      · rw [List.chain'_cons']
        refine ⟨fun e he => ?_, ihc⟩
        exact ihh (stampTime env w mac) hmap hle e he
    · cases hf : w.wireless_client_last_connect mac with
      | none =>
        have hrun := debounceAndRun_closed_new env p mac interval w hf hgate
        rw [← hpp] at hrun
        have hran : ¬ (processPayload env p w).2.ran.length > w.ran.length := by
          rw [hrun]; simp
        rw [executions, if_neg hran]
        exact ⟨fun t ht => absurd ht (by simp), ihc⟩
      | some last =>
        have hrun := debounceAndRun_closed env p mac interval w last hf hgate
        rw [← hpp] at hrun
        have hran : ¬ (processPayload env p w).2.ran.length > w.ran.length := by
          rw [hrun]; simp
        have hmap : (processPayload env p w).2.wireless_client_last_connect mac = some last := by
          rw [hrun]; exact hf
        have hclock : (processPayload env p w).2.clock = w.clock + 1 := by
          rw [hrun]
        rw [executions, if_neg hran]
        refine ⟨fun t ht hlt => ?_, ihc⟩
        simp only [Option.some.injEq] at ht
        subst ht
        refine ihh last hmap ?_
        rw [hclock]
        exact Int.le_trans hlt (um _ _ (Nat.le_succ _))

theorem sampleEnv_clockMonotone (t0 : Int) (result : Int × String)
    (decoded : Except String Payload) : clockMonotone (sampleEnv t0 result decoded) := by
  intro i j h
  unfold Time.le sampleEnv
  simp only
  omega

/-! ## C14: the debounce window over a sequence of calls -/

/-- C14, as stated, fails: a new client sends `AP-STA-CONNECTED` twice in a
row with `interval` 3600, `only_for` absent and `cmd` present, under a clock
that advances one second per reading; both calls run the script, at Unix
seconds 1700000002 and 1700000004, two seconds apart. -/
theorem connect_events_ignore_window :
    clockMonotone (sampleEnv 1700000000 (0, "") (.error "")) ∧
    plainCall (sampleEnv 1700000000 (0, "") (.error "")) "AA:BB:CC:DD:EE:FF" 3600
      (samplePayload "AA:BB:CC:DD:EE:FF" "AP-STA-CONNECTED" (some "echo hi")
        [("interval", num3600)]) ∧
    executions (sampleEnv 1700000000 (0, "") (.error ""))
      [samplePayload "AA:BB:CC:DD:EE:FF" "AP-STA-CONNECTED" (some "echo hi")
         [("interval", num3600)],
       samplePayload "AA:BB:CC:DD:EE:FF" "AP-STA-CONNECTED" (some "echo hi")
         [("interval", num3600)]] emptyWorld
      = [⟨1700000002, true⟩, ⟨1700000004, true⟩] ∧
    ¬ ((1700000004 : Int) - 1700000002 ≥ 3600) := by
  refine ⟨sampleEnv_clockMonotone _ _ _, ⟨by decide, rfl, rfl, rfl, rfl⟩, by decide, by decide⟩

/-- C14, amended: for every sequence of `processPayload` calls for one
client with a fixed interval, `only_for` absent, `cmd` present and a clock
that never goes back, any two consecutive executions of which the later is
for an `AP-STA-DISCONNECTED` event are more than `interval` seconds apart;
an `AP-STA-CONNECTED` event always executes, in whatever state it is
processed, so whatever the time since the execution before it. -/
theorem debounce_window_trace (env : Env) (mac : String) (interval : Int)
    (payloads : List Payload) (w : World)
    (hmono : clockMonotone env)
    (hcalls : ∀ p ∈ payloads, plainCall env mac interval p) :
    List.Chain' (separated interval) (executions env payloads w) ∧
    (∀ (p : Payload) (ps : List Payload) (w1 : World),
      plainCall env mac interval p → isConnected p = true →
      executions env (p :: ps) w1 =
        ⟨(stampTime env w1 mac).unix, true⟩ ::
          executions env ps (processPayload env p w1).2) :=
  ⟨(executions_chain env mac interval hmono payloads w hcalls).2,
   fun p ps w1 hp hconn => executions_connect env mac interval p ps w1 hp hconn⟩

/-- Witness of C14 amended: a new client sends `AP-STA-DISCONNECTED` three
times with `interval` 1 under a clock that advances one second per reading;
the first call executes at 1700000002, the second comes one second after it
and is held back, the third executes at 1700000005. -/
theorem debounce_window_trace_witness :
    executions (sampleEnv 1700000000 (0, "") (.error ""))
      [samplePayload "AA:BB:CC:DD:EE:FF" "AP-STA-DISCONNECTED" (some "echo hi")
         [("interval", wholeNumber 1)],
       samplePayload "AA:BB:CC:DD:EE:FF" "AP-STA-DISCONNECTED" (some "echo hi")
         [("interval", wholeNumber 1)],
       samplePayload "AA:BB:CC:DD:EE:FF" "AP-STA-DISCONNECTED" (some "echo hi")
         [("interval", wholeNumber 1)]] emptyWorld
      = [⟨1700000002, false⟩, ⟨1700000005, false⟩] ∧
    List.Chain' (separated 1)
      (executions (sampleEnv 1700000000 (0, "") (.error ""))
        [samplePayload "AA:BB:CC:DD:EE:FF" "AP-STA-DISCONNECTED" (some "echo hi")
           [("interval", wholeNumber 1)],
         samplePayload "AA:BB:CC:DD:EE:FF" "AP-STA-DISCONNECTED" (some "echo hi")
           [("interval", wholeNumber 1)],
         samplePayload "AA:BB:CC:DD:EE:FF" "AP-STA-DISCONNECTED" (some "echo hi")
           [("interval", wholeNumber 1)]] emptyWorld) :=
  ⟨by decide,
   (debounce_window_trace (sampleEnv 1700000000 (0, "") (.error "")) "AA:BB:CC:DD:EE:FF" 1
    [samplePayload "AA:BB:CC:DD:EE:FF" "AP-STA-DISCONNECTED" (some "echo hi")
       [("interval", wholeNumber 1)],
     samplePayload "AA:BB:CC:DD:EE:FF" "AP-STA-DISCONNECTED" (some "echo hi")
       [("interval", wholeNumber 1)],
     samplePayload "AA:BB:CC:DD:EE:FF" "AP-STA-DISCONNECTED" (some "echo hi")
       [("interval", wholeNumber 1)]] emptyWorld
    (sampleEnv_clockMonotone 1700000000 (0, "") (.error ""))
    (fun p hp => by
      simp only [List.mem_cons, List.mem_singleton, List.not_mem_nil, or_false, or_self] at hp
      subst hp
      exact ⟨by decide, rfl, rfl, rfl, rfl⟩)).1⟩

/-! ## C19: frame and growth of the map -/

/-- C19: for every payload and every state, after `processPayload` (ended
by `nil`, an error or a panic) every key other than the event's
`client_mac_address` maps to the timestamp it had, no key has been removed,
and the entry of the client is unchanged or equal to a clock reading taken
during the call; hence, under a clock that never goes back, over every
sequence of calls no stored timestamp lies in the future, no key disappears
and no timestamp decreases. -/
theorem per_client_frame (env : Env) (payload : Payload) (w : World) :
    (∀ k, mapGet payload.event.params "client_mac_address" ≠ some (.str k) →
      (processPayload env payload w).2.wireless_client_last_connect k
        = w.wireless_client_last_connect k) ∧
    (∀ k t, w.wireless_client_last_connect k = some t →
      ∃ t', (processPayload env payload w).2.wireless_client_last_connect k = some t') ∧
    (∀ k, (processPayload env payload w).2.wireless_client_last_connect k
        = w.wireless_client_last_connect k ∨
      ∃ n, w.clock ≤ n ∧ n < (processPayload env payload w).2.clock ∧
        (processPayload env payload w).2.wireless_client_last_connect k = some (env.now n)) ∧
    (clockMonotone env → noFutureStamps env w → ∀ payloads : List Payload,
      noFutureStamps env (runCalls env payloads w) ∧
      ∀ k t, w.wireless_client_last_connect k = some t →
        ∃ t', (runCalls env payloads w).wireless_client_last_connect k = some t' ∧
          Time.le t t') := by
  obtain ⟨-, hf⟩ := processPayload_frame env payload w
  refine ⟨fun k hk => ?_, fun k t ht => ?_, fun k => ?_, fun hmono hw payloads => ?_⟩
  · rcases hf k with h | ⟨h, -⟩
    · exact h
    · exact absurd h hk
  · rcases hf k with h | ⟨-, n, -, -, h⟩
    · exact ⟨t, by rw [h, ht]⟩
    · exact ⟨_, h⟩
  · rcases hf k with h | ⟨-, h⟩
    · exact Or.inl h
    · exact Or.inr h
  · obtain ⟨-, h1, h2⟩ := runCalls_frame env hmono payloads w hw
    exact ⟨h1, h2⟩

/-- Witness of C19: from the start-up state, a connect followed by a
disconnect of the same client leave no timestamp in the future. -/
theorem per_client_frame_witness :
    noFutureStamps (sampleEnv 1700000000 (0, "") (.error ""))
      (runCalls (sampleEnv 1700000000 (0, "") (.error ""))
        [samplePayload "AA:BB:CC:DD:EE:FF" "AP-STA-CONNECTED" (some "echo hi") [],
         samplePayload "AA:BB:CC:DD:EE:FF" "AP-STA-DISCONNECTED" (some "echo hi") []]
        emptyWorld) :=
  ((per_client_frame (sampleEnv 1700000000 (0, "") (.error ""))
      (samplePayload "AA:BB:CC:DD:EE:FF" "AP-STA-CONNECTED" (some "echo hi") [])
      emptyWorld).2.2.2
    (sampleEnv_clockMonotone 1700000000 (0, "") (.error ""))
    (fun k t ht => absurd ht (by simp [emptyWorld]))
    [samplePayload "AA:BB:CC:DD:EE:FF" "AP-STA-CONNECTED" (some "echo hi") [],
     samplePayload "AA:BB:CC:DD:EE:FF" "AP-STA-DISCONNECTED" (some "echo hi") []]).1

end ActionHandler
